import Mathlib

/-!
# oxsx: binned extended negative log-likelihood and convolution systematic

A shallow embedding of `src/teststat/BinnedNLLH.cpp` and
`src/systematic/Convolution.cpp`.

Conventions of the embedding.

* A C++ member function that mutates `*this` and may throw becomes a function
  `State → Except Error Result × State`: the second component is the object as
  the call leaves it, also when the call throws.  A `const` member function
  returns `Except Error Result`.
* `double` is an arbitrary type `α` with the operations the code uses (`0`, `+`,
  `-`, `*`, a decidable test against `0`) and no law of arithmetic: every theorem
  about the code holds for rounded arithmetic too, and `IntDouble` is the IEEE
  arithmetic on integer-valued doubles.  `log` is a parameter.  `size_t` and
  `unsigned` are `Nat`: bin ids are taken to be below `2^32`.
* Classes whose implementation is not part of the embedded sources and that
  `BinnedNLLH` calls (`BinnedPdfManager`, `SystematicManager`, `PdfShrinker`,
  `DataSet`, `Histogram`, `QuadraticConstraint`) are parameters, collected in
  `Collaborators`.  An exception they raise is carried as
  `NLLHError.Collaborator`.
* The classes that `Convolution` calls and whose bodies are missing
  (`AxisCollection`, `DataRepresentation`, `PdfMapping`, `Systematic`) are
  modelled from the spec, each definition saying so.
-/

namespace Oxsx

/-! ## BinnedNLLH -/

/-- Exceptions that leave `BinnedNLLH` member functions.  `E` is the type of
the exceptions raised inside collaborators. -/
inductive NLLHError (E : Type) where
  /-- `DataException`, thrown by `Evaluate` when no data is bound. -/
  | DataException
  /-- The `std::runtime_error` "Encountered zero probability bin!". -/
  | ZeroProbability
  /-- `DimensionError`, thrown by the constraint accessors. -/
  | DimensionError
  /-- Dereference of a null `fDataSet` (undefined behaviour in C++). -/
  | NullDataSet
  /-- An exception raised by a collaborator and propagated unchanged. -/
  | Collaborator (e : E)
  deriving DecidableEq, Repr

/-- The operations of the collaborating classes that `BinnedNLLH` calls.
`PM` = `BinnedPdfManager`, `SM` = `SystematicManager`, `SH` = `PdfShrinker`,
`DS` = `DataSet`, `EV` = `EventData`, `PDF` = `BinnedPdf`,
`QC` = `QuadraticConstraint`. -/
structure Collaborators (α PM SM SH DS EV PDF QC E : Type) where
  /-- `SystematicManager::SetParameters`. -/
  SetParameters : SM → List α → Except E Unit × SM
  /-- `BinnedPdfManager::ApplySystematics`. -/
  ApplySystematics : PM → SM → Except E Unit × PM
  /-- `BinnedPdfManager::ApplyShrink`. -/
  ApplyShrink : PM → SH → Except E Unit × PM
  /-- `BinnedPdfManager::SetNormalisations`. -/
  SetNormalisations : PM → List α → Except E Unit × PM
  /-- `BinnedPdfManager::BinProbability` (const). -/
  BinProbability : PM → Nat → Except E α
  /-- `BinnedPdfManager::GetOriginalPdf` (const). -/
  GetOriginalPdf : PM → Nat → Except E PDF
  /-- `BinnedPdfManager::AddPdf`. -/
  AddPdf : PM → PDF → Except E Unit × PM
  /-- `PdfShrinker::ShrinkPdf` (const). -/
  ShrinkPdf : SH → PDF → Except E PDF
  /-- `PdfShrinker::SetBuffer`. -/
  SetBuffer : SH → Nat → Nat → Nat → Except E Unit × SH
  /-- `PdfShrinker::SetUsingOverflows`. -/
  SetUsingOverflows : SH → Bool → SH
  /-- `DataSet::GetNEntries`. -/
  GetNEntries : DS → Nat
  /-- `DataSet::GetEntry`. -/
  GetEntry : DS → Nat → Except E EV
  /-- `BinnedPdf::Empty`, forwarded to the histogram. -/
  EmptyPdf : PDF → PDF
  /-- `BinnedPdf::Fill(const EventData&)`. -/
  Fill : PDF → EV → Except E PDF
  /-- `BinnedPdf::GetNBins`, forwarded to the histogram. -/
  GetNBins : PDF → Nat
  /-- `BinnedPdf::GetBinContent`, forwarded to the histogram. -/
  GetBinContent : PDF → Nat → Except E α
  /-- `QuadraticConstraint::operator()`. -/
  constraint : QC → List α → Except E α
  /-- `log` of `<math.h>`. -/
  log : α → α

/-- The data members of `BinnedNLLH`. -/
structure BinnedNLLH (α PM SM SH DS PDF QC : Type) where
  fPdfManager : PM
  fSystematicManager : SM
  fPdfShrinker : SH
  /-- `DataSet* fDataSet`; `none` is the null pointer. -/
  fDataSet : Option DS
  fDataPdf : PDF
  fCalculatedDataPdf : Bool
  fNormalisations : List α
  fSystematicParams : List α
  fSystematicConstraints : List QC
  fNormalisationConstraints : List QC
  fNpdfs : Nat
  fNsystematics : Nat
  deriving DecidableEq

section NLLH

variable {α PM SM SH DS EV PDF QC E : Type}

/-- The loop `for i < fDataSet->GetNEntries(): dataPdf.Fill(fDataSet->GetEntry(i))`
of `BinData`, over the remaining entry indices. -/
def fillLoop (K : Collaborators α PM SM SH DS EV PDF QC E) (ds : DS) :
    List Nat → PDF → Except E PDF
  | [], pdf => .ok pdf
  | i :: rest, pdf =>
    match K.GetEntry ds i with
    | .error e => .error e
    | .ok dat =>
      match K.Fill pdf dat with
      | .error e => .error e
      | .ok pdf1 => fillLoop K ds rest pdf1

/-- `BinnedNLLH::BinData`. -/
def BinData (K : Collaborators α PM SM SH DS EV PDF QC E)
    (s : BinnedNLLH α PM SM SH DS PDF QC) :
    Except (NLLHError E) Unit × BinnedNLLH α PM SM SH DS PDF QC :=
  match K.GetOriginalPdf s.fPdfManager 0 with
  | .error e => (.error (.Collaborator e), s)
  | .ok orig =>
    match s.fDataSet with
    | none => (.error .NullDataSet, s)
    | some ds =>
      match fillLoop K ds (List.range (K.GetNEntries ds)) (K.EmptyPdf orig) with
      | .error e => (.error (.Collaborator e), s)
      | .ok dataPdf =>
        match K.ShrinkPdf s.fPdfShrinker dataPdf with
        | .error e => (.error (.Collaborator e), s)
        | .ok shrunk =>
          (.ok (), { s with fDataPdf := shrunk, fCalculatedDataPdf := true })

/-- The per-bin loop of `Evaluate` over the remaining bin indices, `nLogLH`
being the accumulator. -/
def binLoop [Zero α] [Sub α] [Mul α] [DecidableEq α]
    (K : Collaborators α PM SM SH DS EV PDF QC E)
    (pm : PM) (data : PDF) : List Nat → α → Except (NLLHError E) α
  | [], nLogLH => .ok nLogLH
  | i :: rest, nLogLH =>
    match K.BinProbability pm i with
    | .error e => .error (.Collaborator e)
    | .ok prob =>
      if prob = 0 then .error .ZeroProbability
      else
        match K.GetBinContent data i with
        | .error e => .error (.Collaborator e)
        | .ok content => binLoop K pm data rest (nLogLH - content * K.log prob)

/-- The loops `nLogLH += constraints.at(i)(params)` of `Evaluate`. -/
def constraintLoop [Add α] (K : Collaborators α PM SM SH DS EV PDF QC E)
    (params : List α) : List QC → α → Except (NLLHError E) α
  | [], nLogLH => .ok nLogLH
  | c :: rest, nLogLH =>
    match K.constraint c params with
    | .error e => .error (.Collaborator e)
    | .ok x => constraintLoop K params rest (nLogLH + x)

/-- The part of `Evaluate` after the data PDF is in place: lines 17 to 50. -/
def evaluateBody [Zero α] [Add α] [Sub α] [Mul α] [DecidableEq α]
    (K : Collaborators α PM SM SH DS EV PDF QC E)
    (s : BinnedNLLH α PM SM SH DS PDF QC) :
    Except (NLLHError E) α × BinnedNLLH α PM SM SH DS PDF QC :=
  -- fSystematicManager.SetParameters(fSystematicParams)
  match K.SetParameters s.fSystematicManager s.fSystematicParams with
  | (.error e, sm) => (.error (.Collaborator e), { s with fSystematicManager := sm })
  | (.ok _, sm) =>
    -- fPdfManager.ApplySystematics(fSystematicManager)
    match K.ApplySystematics s.fPdfManager sm with
    | (.error e, pm1) =>
      (.error (.Collaborator e), { s with fSystematicManager := sm, fPdfManager := pm1 })
    | (.ok _, pm1) =>
      -- fPdfManager.ApplyShrink(fPdfShrinker)
      match K.ApplyShrink pm1 s.fPdfShrinker with
      | (.error e, pm2) =>
        (.error (.Collaborator e), { s with fSystematicManager := sm, fPdfManager := pm2 })
      | (.ok _, pm2) =>
        -- fPdfManager.SetNormalisations(fNormalisations)
        match K.SetNormalisations pm2 s.fNormalisations with
        | (.error e, pm3) =>
          (.error (.Collaborator e), { s with fSystematicManager := sm, fPdfManager := pm3 })
        | (.ok _, pm3) =>
          let s1 := { s with fSystematicManager := sm, fPdfManager := pm3 }
          match binLoop K pm3 s.fDataPdf (List.range (K.GetNBins s.fDataPdf)) 0 with
          | .error e => (.error e, s1)
          | .ok nLogLH =>
            -- extended likelihood correction
            let nLogLH := s.fNormalisations.foldl (fun acc x => acc + x) nLogLH
            match constraintLoop K s.fSystematicParams s.fSystematicConstraints nLogLH with
            | .error e => (.error e, s1)
            | .ok nLogLH =>
              match constraintLoop K s.fNormalisations s.fNormalisationConstraints nLogLH with
              | .error e => (.error e, s1)
              | .ok nLogLH => (.ok nLogLH, s1)

/-- `BinnedNLLH::Evaluate`. -/
def Evaluate [Zero α] [Add α] [Sub α] [Mul α] [DecidableEq α]
    (K : Collaborators α PM SM SH DS EV PDF QC E)
    (s : BinnedNLLH α PM SM SH DS PDF QC) :
    Except (NLLHError E) α × BinnedNLLH α PM SM SH DS PDF QC :=
  if s.fDataSet.isNone && !s.fCalculatedDataPdf then (.error .DataException, s)
  else if !s.fCalculatedDataPdf then
    match BinData K s with
    | (.error e, s1) => (.error e, s1)
    | (.ok _, s1) => evaluateBody K s1
  else evaluateBody K s

/-- `BinnedNLLH::SetSystematicConstraint`. -/
def SetSystematicConstraint (s : BinnedNLLH α PM SM SH DS PDF QC) (index_ : Nat) (constr_ : QC) :
    Except (NLLHError E) Unit × BinnedNLLH α PM SM SH DS PDF QC :=
  if index_ ≥ s.fSystematicConstraints.length then (.error .DimensionError, s)
  else (.ok (), { s with fSystematicConstraints := s.fSystematicConstraints.set index_ constr_ })

/-- `BinnedNLLH::AddNormalisationConstraint`. -/
def AddNormalisationConstraint (s : BinnedNLLH α PM SM SH DS PDF QC) (constr_ : QC) :
    BinnedNLLH α PM SM SH DS PDF QC :=
  { s with fNormalisationConstraints := s.fNormalisationConstraints ++ [constr_] }

/-- `BinnedNLLH::SetNormalisationConstraint`. -/
def SetNormalisationConstraint (s : BinnedNLLH α PM SM SH DS PDF QC) (index_ : Nat) (constr_ : QC) :
    Except (NLLHError E) Unit × BinnedNLLH α PM SM SH DS PDF QC :=
  if index_ ≥ s.fNormalisationConstraints.length then (.error .DimensionError, s)
  else (.ok (),
    { s with fNormalisationConstraints := s.fNormalisationConstraints.set index_ constr_ })

/-- `BinnedNLLH::GetNormalisationConstraint` (const). -/
def GetNormalisationConstraint (s : BinnedNLLH α PM SM SH DS PDF QC) (index_ : Nat) :
    Except (NLLHError E) QC :=
  if index_ ≥ s.fNormalisationConstraints.length then .error .DimensionError
  else
    match s.fNormalisationConstraints[index_]? with
    | some c => .ok c
    | none => .error .DimensionError

/-- `BinnedNLLH::GetSystematicConstraint` (const). -/
def GetSystematicConstraint (s : BinnedNLLH α PM SM SH DS PDF QC) (index_ : Nat) :
    Except (NLLHError E) QC :=
  if index_ ≥ s.fSystematicConstraints.length then .error .DimensionError
  else
    match s.fSystematicConstraints[index_]? with
    | some c => .ok c
    | none => .error .DimensionError

/-- `BinnedNLLH::SetDataSet`; `none` is a null pointer. -/
def SetDataSet (s : BinnedNLLH α PM SM SH DS PDF QC) (dataSet_ : Option DS) :
    BinnedNLLH α PM SM SH DS PDF QC :=
  { s with fDataSet := dataSet_, fCalculatedDataPdf := false }

/-- `BinnedNLLH::SetDataPdf`. -/
def SetDataPdf (K : Collaborators α PM SM SH DS EV PDF QC E)
    (s : BinnedNLLH α PM SM SH DS PDF QC) (binnedPdf_ : PDF) :
    Except (NLLHError E) Unit × BinnedNLLH α PM SM SH DS PDF QC :=
  match K.ShrinkPdf s.fPdfShrinker binnedPdf_ with
  | .error e => (.error (.Collaborator e), s)
  | .ok shrunk => (.ok (), { s with fDataPdf := shrunk, fCalculatedDataPdf := true })

/-- `BinnedNLLH::GetDataPdf` (const). -/
def GetDataPdf (s : BinnedNLLH α PM SM SH DS PDF QC) : PDF :=
  s.fDataPdf

/-- `BinnedNLLH::AddPdf`. -/
def AddPdf (K : Collaborators α PM SM SH DS EV PDF QC E)
    (s : BinnedNLLH α PM SM SH DS PDF QC) (pdf_ : PDF) :
    Except (NLLHError E) Unit × BinnedNLLH α PM SM SH DS PDF QC :=
  match K.AddPdf s.fPdfManager pdf_ with
  | (.error e, pm) => (.error (.Collaborator e), { s with fPdfManager := pm })
  | (.ok _, pm) => (.ok (), { s with fPdfManager := pm, fNpdfs := s.fNpdfs + 1 })

/-- `BinnedNLLH::SetBuffer`. -/
def SetBuffer (K : Collaborators α PM SM SH DS EV PDF QC E)
    (s : BinnedNLLH α PM SM SH DS PDF QC) (dim_ lower_ upper_ : Nat) :
    Except (NLLHError E) Unit × BinnedNLLH α PM SM SH DS PDF QC :=
  match K.SetBuffer s.fPdfShrinker dim_ lower_ upper_ with
  | (.error e, sh) => (.error (.Collaborator e), { s with fPdfShrinker := sh })
  | (.ok _, sh) => (.ok (), { s with fPdfShrinker := sh })

/-- `BinnedNLLH::SetBufferAsOverflow`. -/
def SetBufferAsOverflow (K : Collaborators α PM SM SH DS EV PDF QC E)
    (s : BinnedNLLH α PM SM SH DS PDF QC) (b_ : Bool) :
    BinnedNLLH α PM SM SH DS PDF QC :=
  { s with fPdfShrinker := K.SetUsingOverflows s.fPdfShrinker b_ }

end NLLH

/-! ## Axes, data representations and the sparse mapping -/

/-- Exceptions raised by the library calls of `Convolution.cpp`: `std::vector::at`
and the member functions of `AxisCollection`, `PdfAxis`, `PdfMapping` and
`DataRepresentation`. -/
inductive LibError where
  /-- The `std::out_of_range` of `std::vector::at`. -/
  | OutOfRange
  /-- `DimensionError` of the axis collection and the mapping. -/
  | DimensionError
  /-- `RepresentationError` of `DataRepresentation::GetRelativeIndices`. -/
  | RepresentationError
  deriving DecidableEq, Repr

/-- Exceptions that leave `Convolution::Construct`: the `InitialisationError` that
`Construct` throws itself, or an exception of one of the library calls, which
`Convolution.cpp` lets through. -/
inductive ConvError where
  | InitialisationError
  | Library (e : LibError)
  deriving DecidableEq, Repr

deriving instance DecidableEq for Except

/-- `std::vector::at`. -/
def vectorAt {β : Type} (v : List β) (i : Nat) : Except LibError β :=
  match v[i]? with
  | some x => .ok x
  | none => .error .OutOfRange

/-- `std::vector::resize(n)` with the value-initialised element `d`. -/
def vectorResize {β : Type} (v : List β) (n : Nat) (d : β) : List β :=
  v.take n ++ List.replicate (n - v.length) d

/-- The data members of `PdfAxis` (`PdfAxis.h`). -/
structure PdfAxis (α : Type) where
  fNBins : Nat
  fMin : α
  fMax : α
  fName : String
  fLatexName : String
  fBinLowEdges : List α
  fBinHighEdges : List α
  fBinCentres : List α
  fBinWidths : List α
  deriving DecidableEq

/-- `PdfAxis::GetNBins`. -/
def PdfAxis.GetNBins {α : Type} (a : PdfAxis α) : Nat := a.fNBins

/-- `PdfAxis::GetBinLowEdge`. -/
def PdfAxis.GetBinLowEdge {α : Type} (a : PdfAxis α) (i : Nat) : Except LibError α :=
  vectorAt a.fBinLowEdges i

/-- `PdfAxis::GetBinHighEdge`. -/
def PdfAxis.GetBinHighEdge {α : Type} (a : PdfAxis α) (i : Nat) : Except LibError α :=
  vectorAt a.fBinHighEdges i

/-- `PdfAxis::GetBinCentre`. -/
def PdfAxis.GetBinCentre {α : Type} (a : PdfAxis α) (i : Nat) : Except LibError α :=
  vectorAt a.fBinCentres i

/-- `PdfAxis::GetName`. -/
def PdfAxis.GetName {α : Type} (a : PdfAxis α) : String := a.fName

/-- The data members of `AxisCollection` (`AxisCollection.h`). -/
structure AxisCollection (α : Type) where
  fAxes : List (PdfAxis α)
  fAxisNbins : List Nat
  fNBins : Nat
  fNDimensions : Nat
  deriving DecidableEq

namespace AxisCollection

variable {α : Type}

/-- The default constructor `AxisCollection():fNDimensions(0), fNBins(0){}`. -/
def new : AxisCollection α := ⟨[], [], 0, 0⟩

/-- Modelled from the spec: `AxisCollection::GetNBins` is declared in
`AxisCollection.h` and its body is missing; it returns `totalNBins`. -/
def GetNBins (c : AxisCollection α) : Nat := c.fNBins

/-- Modelled from the spec: `AxisCollection::GetNDimensions` is declared in
`AxisCollection.h` and its body is missing; it returns `nDimensions`. -/
def GetNDimensions (c : AxisCollection α) : Nat := c.fNDimensions

/-- Modelled from the spec: `AxisCollection::HasAxis` (body missing) tells whether an
axis of that name is held; axis names are unique within a collection. -/
def HasAxis (c : AxisCollection α) (name_ : String) : Bool :=
  c.fAxes.any (fun a => a.fName == name_)

/-- Modelled from the spec: `AxisCollection::AddAxis` (body missing).  The axis is
appended, `totalNBins = Π perAxisNBins[d]` is recounted, and a name already in the
collection is refused. -/
def AddAxis (c : AxisCollection α) (axis_ : PdfAxis α) : Except LibError (AxisCollection α) :=
  if c.HasAxis axis_.fName then .error .DimensionError
  else
    let nbins := c.fAxisNbins ++ [axis_.GetNBins]
    .ok { fAxes := c.fAxes ++ [axis_], fAxisNbins := nbins, fNBins := nbins.prod,
          fNDimensions := c.fNDimensions + 1 }

/-- Modelled from the spec: `AxisCollection::GetAxis` (body missing). -/
def GetAxis (c : AxisCollection α) (axisIndex_ : Nat) : Except LibError (PdfAxis α) :=
  vectorAt c.fAxes axisIndex_

/-- The place value of dimension `dim_` in the mixed-radix encoding: the product of
the bin counts of the later axes (the last axis varies fastest). -/
def stride (c : AxisCollection α) (dim_ : Nat) : Nat :=
  (c.fAxisNbins.drop (dim_ + 1)).prod

/-- The digit of global bin `index_` at dimension `dim_` in the mixed-radix
encoding. -/
def digit (c : AxisCollection α) (index_ dim_ : Nat) : Nat :=
  index_ / c.stride dim_ % c.fAxisNbins.getD dim_ 1

/-- Modelled from the spec: `AxisCollection::UnflattenIndex` (body missing), the
per-axis index of global bin `index_` on axis `dim_` in the mixed-radix encoding.
The spec leaves open which axis varies fastest; here it is the last one. -/
def UnflattenIndex (c : AxisCollection α) (index_ dim_ : Nat) : Except LibError Nat :=
  if dim_ ≥ c.fNDimensions then .error .DimensionError
  else .ok (c.digit index_ dim_)

/-- Modelled from the spec: `AxisCollection::FlattenIndices` (body missing), the
mixed-radix encoding; a wrong number of indices is a dimension error. -/
def FlattenIndices (c : AxisCollection α) (indices_ : List Nat) : Except LibError Nat :=
  if indices_.length ≠ c.fNDimensions then .error .DimensionError
  else .ok (((List.range indices_.length).map (fun d => indices_.getD d 0 * c.stride d)).sum)

/-- One entry per dimension, `f dim (UnflattenIndex bin_ dim)` for every axis: the
shape shared by `GetBinCentres`, `GetBinLowEdges` and `GetBinHighEdges`. -/
def perAxis (c : AxisCollection α) (f : PdfAxis α → Nat → Except LibError α) (bin_ : Nat) :
    List Nat → Except LibError (List α)
  | [] => .ok []
  | dim :: rest =>
    match vectorAt c.fAxes dim with
    | .error e => .error e
    | .ok axis =>
      match c.UnflattenIndex bin_ dim with
      | .error e => .error e
      | .ok idx =>
        match f axis idx with
        | .error e => .error e
        | .ok x =>
          match perAxis c f bin_ rest with
          | .error e => .error e
          | .ok xs => .ok (x :: xs)

/-- Modelled from the spec: `AxisCollection::GetBinCentres` (body missing): unpack
the bin, then look up the centre on every axis. -/
def GetBinCentres (c : AxisCollection α) (bin_ : Nat) : Except LibError (List α) :=
  c.perAxis PdfAxis.GetBinCentre bin_ (List.range c.fNDimensions)

/-- Modelled from the spec: `AxisCollection::GetBinLowEdges` (body missing). -/
def GetBinLowEdges (c : AxisCollection α) (bin_ : Nat) : Except LibError (List α) :=
  c.perAxis PdfAxis.GetBinLowEdge bin_ (List.range c.fNDimensions)

/-- Modelled from the spec: `AxisCollection::GetBinHighEdges` (body missing). -/
def GetBinHighEdges (c : AxisCollection α) (bin_ : Nat) : Except LibError (List α) :=
  c.perAxis PdfAxis.GetBinHighEdge bin_ (List.range c.fNDimensions)

end AxisCollection

/-- Modelled from the spec: `DataRepresentation::GetRelativeIndices` (the class is
missing from the sources).  A representation is the ordered list of observable
indices; the result lists, for every index of `self`, its position within `other_`.
An index that `other_` does not hold is a representation error. -/
def GetRelativeIndices (self other_ : List Nat) : Except LibError (List Nat) :=
  match self with
  | [] => .ok []
  | i :: rest =>
    match other_.indexOf? i with
    | none => .error .RepresentationError
    | some pos =>
      match GetRelativeIndices rest other_ with
      | .error e => .error e
      | .ok ps => .ok (pos :: ps)

/-- Modelled from the spec: `PdfMapping` (the class is missing from the sources), a
sparse square matrix over the bin ids of its axes, held as `(row, col, value)`
triples; a component without a triple is zero. -/
structure PdfMapping (α : Type) where
  fAxes : AxisCollection α
  entries : List (Nat × Nat × α)
  deriving DecidableEq

namespace PdfMapping

variable {α : Type}

/-- Modelled from the spec: the default-constructed `PdfMapping`. -/
def new : PdfMapping α := ⟨AxisCollection.new, []⟩

/-- Modelled from the spec: `PdfMapping::SetAxes`; the mapping takes the bin space
of the axes and starts without entries. -/
def SetAxes (_m : PdfMapping α) (axes_ : AxisCollection α) : PdfMapping α :=
  ⟨axes_, []⟩

/-- Modelled from the spec: `PdfMapping::GetAxes`. -/
def GetAxes (m : PdfMapping α) : AxisCollection α := m.fAxes

/-- Modelled from the spec: `PdfMapping::GetNBins`. -/
def GetNBins (m : PdfMapping α) : Nat := m.fAxes.GetNBins

/-- Modelled from the spec: `PdfMapping::GetComponent`, the dense-style read. -/
def GetComponent [Zero α] (m : PdfMapping α) (row_ col_ : Nat) : Except LibError α :=
  if row_ ≥ m.GetNBins ∨ col_ ≥ m.GetNBins then .error .OutOfRange
  else
    match m.entries.find? (fun t => t.1 == row_ && t.2.1 == col_) with
    | some t => .ok t.2.2
    | none => .ok 0

/-- Modelled from the spec: `PdfMapping::SetComponent`, the dense-style write. -/
def SetComponent (m : PdfMapping α) (row_ col_ : Nat) (val_ : α) :
    Except LibError (PdfMapping α) :=
  if row_ ≥ m.GetNBins ∨ col_ ≥ m.GetNBins then .error .OutOfRange
  else .ok { m with entries := (row_, col_, val_) :: m.entries }

/-- Modelled from the spec: `PdfMapping::SetComponents`, building the matrix from
`(row, col, value)` triples given as three vectors of one length. -/
def SetComponents (m : PdfMapping α) (rowIndices_ colIndices_ : List Nat) (values_ : List α) :
    Except LibError (PdfMapping α) :=
  if rowIndices_.length ≠ values_.length ∨ colIndices_.length ≠ values_.length then
    .error .DimensionError
  else .ok { m with entries := List.zip rowIndices_ (List.zip colIndices_ values_) }

end PdfMapping

/-! ## Convolution -/

/-- The interface of the kernel PDF (`IntegrablePdf`, missing from the sources) that
`Convolution` uses; `K` is the type of kernel PDFs. -/
structure KernelOps (α K : Type) where
  /-- `IntegrablePdf::Integral(lowEdges, highEdges)`. -/
  Integral : K → List α → List α → α
  /-- `IntegrablePdf::GetParameters`. -/
  GetParameters : K → List α

/-- The data members of `Convolution` (with those of its base `Systematic`). -/
structure Convolution (α K : Type) where
  /-- `IntegrablePdf* fPdf`; `none` is the null pointer. -/
  fPdf : Option K
  fHasAxes : Bool
  fCachedCompatibleBins : Bool
  fParameterCount : Nat
  fPdfMapping : PdfMapping α
  fDataRep : List Nat
  fPdfDataRep : List Nat
  fCompatibleBins : List (List Nat)
  fSysAxes : AxisCollection α
  fSysBins : List Nat
  deriving DecidableEq

namespace Convolution

variable {α K : Type}

/-- Modelled from the spec: the constructor is in `Convolution.h`, which is missing.
A new `Convolution` acts on the observables `dataRep` of PDFs whose observables are
`pdfDataRep`; it has no kernel PDF, no axes and no cache. -/
def new (dataRep pdfDataRep : List Nat) : Convolution α K :=
  { fPdf := none, fHasAxes := false, fCachedCompatibleBins := false, fParameterCount := 0,
    fPdfMapping := PdfMapping.new, fDataRep := dataRep, fPdfDataRep := pdfDataRep,
    fCompatibleBins := [], fSysAxes := AxisCollection.new, fSysBins := [] }

/-- `Convolution::SetPdf`, on a kernel that is an `IntegrablePdf`. -/
def SetPdf (ops : KernelOps α K) (c : Convolution α K) (pdf_ : K) : Convolution α K :=
  { c with fPdf := some pdf_, fParameterCount := (ops.GetParameters pdf_).length }

/-- `Convolution::SetAxes`. -/
def SetAxes (c : Convolution α K) (axes_ : AxisCollection α) : Convolution α K :=
  { c with fPdfMapping := c.fPdfMapping.SetAxes axes_, fHasAxes := true }

/-- Whether two bins have the same index on every axis that is not one of the
relative indices `rel` of the systematic. -/
def sameOutside (axes : AxisCollection α) (rel : List Nat) (bin1_ bin2_ : Nat) : Bool :=
  (List.range axes.fNDimensions).all (fun d =>
    decide (d ∈ rel) || (axes.digit bin1_ d == axes.digit bin2_ d))

/-- Modelled from the spec: `Systematic::BinsCompatible` (body missing): two
full-dimensional bins are compatible iff they map to the same bin in every axis
outside the axes the systematic acts on. -/
def BinsCompatible (c : Convolution α K) (bin1_ bin2_ : Nat) : Except LibError Bool :=
  match GetRelativeIndices c.fDataRep c.fPdfDataRep with
  | .error e => .error e
  | .ok rel => .ok (sameOutside c.fPdfMapping.GetAxes rel bin1_ bin2_)

/-- The two `push_back`s of `CacheCompatibleBins`:
`fCompatibleBins.at(i).push_back(j); fCompatibleBins.at(j).push_back(i)`. -/
def pushPair (bins : List (List Nat)) (i j : Nat) : Except LibError (List (List Nat)) :=
  match vectorAt bins i with
  | .error e => .error e
  | .ok li =>
    let bins1 := bins.set i (li ++ [j])
    match vectorAt bins1 j with
    | .error e => .error e
    | .ok lj => .ok (bins1.set j (lj ++ [i]))

/-- The inner loop of `CacheCompatibleBins` over the remaining `j`; `bins` is
`fCompatibleBins`, the only member the loops write, and `c` the object as
`BinsCompatible` reads it. -/
def cacheInner (c : Convolution α K) (i : Nat) :
    List Nat → List (List Nat) → Except LibError Unit × List (List Nat)
  | [], bins => (.ok (), bins)
  | j :: rest, bins =>
    match c.BinsCompatible i j with
    | .error e => (.error e, bins)
    | .ok false => cacheInner c i rest bins
    | .ok true =>
      match pushPair bins i j with
      | .error e => (.error e, bins)
      | .ok bins1 => cacheInner c i rest bins1

/-- The outer loop of `CacheCompatibleBins` over the remaining `i`; `n` is
`fPdfMapping.GetNBins()`. -/
def cacheOuter (c : Convolution α K) (n : Nat) :
    List Nat → List (List Nat) → Except LibError Unit × List (List Nat)
  | [], bins => (.ok (), bins)
  | i :: rest, bins =>
    match cacheInner c i (List.range' (i + 1) (n - (i + 1))) bins with
    | (.error e, bins1) => (.error e, bins1)
    | (.ok _, bins1) => cacheOuter c n rest bins1

/-- The loop `fSysAxes.AddAxis(axes.GetAxis(relativeIndices.at(i)))`. -/
def buildSysAxes (axes : AxisCollection α) :
    List Nat → AxisCollection α → Except LibError Unit × AxisCollection α
  | [], sys => (.ok (), sys)
  | r :: rest, sys =>
    match axes.GetAxis r with
    | .error e => (.error e, sys)
    | .ok axis =>
      match sys.AddAxis axis with
      | .error e => (.error e, sys)
      | .ok sys1 => buildSysAxes axes rest sys1

/-- The loop `sysIndices[dim] = axes.UnflattenIndex(i, relativeIndices.at(dim))`. -/
def sysIndices (axes : AxisCollection α) (i : Nat) : List Nat → Except LibError (List Nat)
  | [] => .ok []
  | r :: rest =>
    match axes.UnflattenIndex i r with
    | .error e => .error e
    | .ok idx =>
      match sysIndices axes i rest with
      | .error e => .error e
      | .ok idxs => .ok (idx :: idxs)

/-- The loop filling `fSysBins[i]` for the remaining full-space bins `i`. -/
def fillSysBins (axes sysAxes : AxisCollection α) (rel : List Nat) :
    List Nat → List Nat → Except LibError Unit × List Nat
  | [], sysBins => (.ok (), sysBins)
  | i :: rest, sysBins =>
    match sysIndices axes i rel with
    | .error e => (.error e, sysBins)
    | .ok idxs =>
      match sysAxes.FlattenIndices idxs with
      | .error e => (.error e, sysBins)
      | .ok flat => fillSysBins axes sysAxes rel rest (sysBins.set i flat)

/-- `Convolution::CacheCompatibleBins`. -/
def CacheCompatibleBins (c : Convolution α K) : Except LibError Unit × Convolution α K :=
  let n := c.fPdfMapping.GetNBins
  let c1 := { c with fCompatibleBins := vectorResize c.fCompatibleBins n [] }
  match cacheOuter c n (List.range n) c1.fCompatibleBins with
  | (.error e, bins) => (.error e, { c1 with fCompatibleBins := bins })
  | (.ok _, bins) =>
    let c2 := { c1 with fCompatibleBins := bins }
    match GetRelativeIndices c2.fDataRep c2.fPdfDataRep with
    | .error e => (.error e, c2)
    | .ok relativeIndices =>
      let axes := c2.fPdfMapping.GetAxes
      match buildSysAxes axes relativeIndices AxisCollection.new with
      | (.error e, sys) => (.error e, { c2 with fSysAxes := sys })
      | (.ok _, sys) =>
        let c3 := { c2 with fSysAxes := sys, fSysBins := vectorResize c2.fSysBins n 0 }
        match fillSysBins axes sys relativeIndices (List.range axes.GetNBins) c3.fSysBins with
        | (.error e, sysBins) => (.error e, { c3 with fSysBins := sysBins })
        | (.ok _, sysBins) =>
          (.ok (), { c3 with fSysBins := sysBins, fCachedCompatibleBins := true })

/-- The inner loop of the sub-matrix computation of `Construct` over the remaining
destination bins, for the origin bin `origBin` with centre `binCentres`. -/
def subMapInner [Sub α] (ops : KernelOps α K) (pdf : K) (sysAxes : AxisCollection α)
    (origBin : Nat) (binCentres : List α) :
    List Nat → PdfMapping α → Except LibError (PdfMapping α)
  | [], subMap => .ok subMap
  | destBin :: rest, subMap =>
    match sysAxes.GetBinLowEdges destBin with
    | .error e => .error e
    | .ok lowEdges =>
      match sysAxes.GetBinHighEdges destBin with
      | .error e => .error e
      | .ok highEdges =>
        let lowEdges := List.zipWith (fun x y => x - y) lowEdges binCentres
        let highEdges := List.zipWith (fun x y => x - y) highEdges binCentres
        match subMap.SetComponent destBin origBin (ops.Integral pdf lowEdges highEdges) with
        | .error e => .error e
        | .ok subMap1 => subMapInner ops pdf sysAxes origBin binCentres rest subMap1

/-- The outer loop of the sub-matrix computation of `Construct` over the remaining
origin bins. -/
def subMapOuter [Sub α] (ops : KernelOps α K) (pdf : K) (sysAxes : AxisCollection α) :
    List Nat → PdfMapping α → Except LibError (PdfMapping α)
  | [], subMap => .ok subMap
  | origBin :: rest, subMap =>
    match sysAxes.GetBinCentres origBin with
    | .error e => .error e
    | .ok binCentres =>
      match subMapInner ops pdf sysAxes origBin binCentres
          (List.range sysAxes.GetNBins) subMap with
      | .error e => .error e
      | .ok subMap1 => subMapOuter ops pdf sysAxes rest subMap1

/-- The inner loop of the expansion to the full matrix, over the remaining entries
of `fCompatibleBins.at(origBin)`; `acc` holds the triples pushed so far. -/
def expandInner [Zero α] (subMap : PdfMapping α) (sysBins : List Nat) (origBin : Nat) :
    List Nat → List (Nat × Nat × α) → Except LibError (List (Nat × Nat × α))
  | [], acc => .ok acc
  | destBin :: rest, acc =>
    match vectorAt sysBins origBin with
    | .error e => .error e
    | .ok so =>
      match vectorAt sysBins destBin with
      | .error e => .error e
      | .ok sd =>
        match subMap.GetComponent so sd with
        | .error e => .error e
        | .ok v => expandInner subMap sysBins origBin rest (acc ++ [(origBin, destBin, v)])

/-- The outer loop of the expansion to the full matrix, over the remaining origin
bins. -/
def expandOuter [Zero α] (subMap : PdfMapping α) (sysBins : List Nat)
    (compatibleBins : List (List Nat)) :
    List Nat → List (Nat × Nat × α) → Except LibError (List (Nat × Nat × α))
  | [], acc => .ok acc
  | origBin :: rest, acc =>
    match vectorAt compatibleBins origBin with
    | .error e => .error e
    | .ok dests =>
      match expandInner subMap sysBins origBin dests acc with
      | .error e => .error e
      | .ok acc1 => expandOuter subMap sysBins compatibleBins rest acc1

/-- The part of `Construct` after the compatibility cache is in place: lines 33
to 83. -/
def constructBody [Zero α] [Sub α] (ops : KernelOps α K) (pdf : K) (c : Convolution α K) :
    Except LibError Unit × Convolution α K :=
  let axes := c.fPdfMapping.GetAxes
  match GetRelativeIndices c.fDataRep c.fPdfDataRep with
  | .error e => (.error e, c)
  | .ok _ =>
    match subMapOuter ops pdf c.fSysAxes (List.range c.fSysAxes.GetNBins)
        (PdfMapping.new.SetAxes c.fSysAxes) with
    | .error e => (.error e, c)
    | .ok subMap =>
      -- nonZeroRowIndices.reserve(fCompatibleBins.at(0).size())
      match vectorAt c.fCompatibleBins 0 with
      | .error e => (.error e, c)
      | .ok _ =>
        match expandOuter subMap c.fSysBins c.fCompatibleBins (List.range axes.GetNBins) [] with
        | .error e => (.error e, c)
        | .ok triples =>
          match c.fPdfMapping.SetComponents (triples.map (fun t => t.1))
              (triples.map (fun t => t.2.1)) (triples.map (fun t => t.2.2)) with
          | .error e => (.error e, c)
          | .ok mapping => (.ok (), { c with fPdfMapping := mapping })

/-- `Convolution::Construct`. -/
def Construct [Zero α] [Sub α] (ops : KernelOps α K) (c : Convolution α K) :
    Except ConvError Unit × Convolution α K :=
  match c.fPdf, c.fHasAxes with
  | none, _ => (.error .InitialisationError, c)
  | some _, false => (.error .InitialisationError, c)
  | some pdf, true =>
    if !c.fCachedCompatibleBins then
      match c.CacheCompatibleBins with
      | (.error e, c1) => (.error (.Library e), c1)
      | (.ok _, c1) =>
        match constructBody ops pdf c1 with
        | (.error e, c2) => (.error (.Library e), c2)
        | (.ok _, c2) => (.ok (), c2)
    else
      match constructBody ops pdf c with
      | (.error e, c2) => (.error (.Library e), c2)
      | (.ok _, c2) => (.ok (), c2)

end Convolution

/-- The value that the spec gives the reduced sub-matrix at `(row, col)`: the kernel
PDF integrated over the low and high edges of reduced bin `row`, each offset by
subtracting the bin centre of reduced bin `col`. -/
def IsKernelValue {α K : Type} [Sub α] (ops : KernelOps α K) (pdf : K)
    (sysAxes : AxisCollection α) (row col : Nat) (v : α) : Prop :=
  ∃ low high centre : List α,
    sysAxes.GetBinLowEdges row = .ok low ∧
    sysAxes.GetBinHighEdges row = .ok high ∧
    sysAxes.GetBinCentres col = .ok centre ∧
    v = ops.Integral pdf (List.zipWith (fun x y => x - y) low centre)
          (List.zipWith (fun x y => x - y) high centre)

/-! ## Collaborator contracts and concrete collaborators -/

section Contracts

variable {α PM SM SH DS EV PDF QC E : Type}

/-- Modelled from the spec: `SystematicManager::SetParameters` and
`BinnedPdfManager::ApplySystematics`, `ApplyShrink`, `SetNormalisations` are missing
from the sources.  The spec has `SetParameters` dispatch the vector it is given,
`ApplySystematics` re-derive each working PDF from its original, `ApplyShrink` shrink
each working PDF and `SetNormalisations` store the weights: pushing the same
parameters again leaves the systematic manager as it is, and running the three
manager steps again on their own outcome, with the same arguments, reproduces that
outcome. -/
def Rederives (K : Collaborators α PM SM SH DS EV PDF QC E) : Prop :=
  (∀ sm p sm1, K.SetParameters sm p = (.ok (), sm1) → K.SetParameters sm1 p = (.ok (), sm1)) ∧
  (∀ pm sm sh w pm1 pm2 pm3,
    K.ApplySystematics pm sm = (.ok (), pm1) →
    K.ApplyShrink pm1 sh = (.ok (), pm2) →
    K.SetNormalisations pm2 w = (.ok (), pm3) →
    ∃ pm4 pm5, K.ApplySystematics pm3 sm = (.ok (), pm4) ∧
      K.ApplyShrink pm4 sh = (.ok (), pm5) ∧
      K.SetNormalisations pm5 w = (.ok (), pm3))

end Contracts

/-- Modelled from the spec: a `BinnedPdfManager` over one-dimensional histograms
with integer contents: the original PDFs, the working copies and the normalisation
weights. -/
structure SimpleManager where
  fOriginalPdfs : List (List ℤ)
  fWorkingPdfs : List (List ℤ)
  fNormalisations : List ℤ
  deriving DecidableEq, Repr

/-- Modelled from the spec: a one-dimensional `PdfShrinker`: the lower and upper
buffer and whether the buffer is folded into the overflow bins. -/
structure SimpleShrinker where
  fLower : Nat
  fUpper : Nat
  fUsingOverflows : Bool
  deriving DecidableEq, Repr

/-- Modelled from the spec: `PdfShrinker::ShrinkPdf` in one dimension: the buffer
bins are dropped, and with `UsingOverflows` their content is folded into the new
first and last bin. -/
def SimpleShrinker.ShrinkPdf (sh : SimpleShrinker) (pdf : List ℤ) : List ℤ :=
  let kept := (pdf.drop sh.fLower).take (pdf.length - sh.fLower - sh.fUpper)
  if sh.fUsingOverflows then
    let under := (pdf.take sh.fLower).sum
    let over := (pdf.drop (pdf.length - sh.fUpper)).sum
    let kept1 := kept.modify (fun x => x + under) 0
    kept1.modify (fun x => x + over) (kept1.length - 1)
  else kept

/-- Modelled from the spec: `BinnedPdfManager::BinProbability`, the weighted sum of
the working PDFs' content at `bin`. -/
def SimpleManager.BinProbability (m : SimpleManager) (bin : Nat) : Except Unit ℤ :=
  if m.fWorkingPdfs.all (fun pdf => decide (bin < pdf.length)) then
    .ok ((List.zipWith (fun w pdf => w * pdf.getD bin 0) m.fNormalisations m.fWorkingPdfs).sum)
  else .error ()

/-- Modelled from the spec: `QuadraticConstraint::operator()`, the penalty
`Σ ((x_i − x0_i)/σ_i)²` over `(x0_i, σ_i)` pairs, on integers. -/
def simpleConstraint (c : List (ℤ × ℤ)) (params : List ℤ) : Except Unit ℤ :=
  if c.length ≠ params.length then .error ()
  else .ok ((List.zipWith (fun t x => ((x - t.1) / t.2) ^ 2) c params).sum)

/-- The floor of the base-two logarithm of `n`, by halving at most `fuel` times. -/
def floorLog2 : Nat → Nat → Nat
  | 0, _ => 0
  | fuel + 1, n => if 2 ≤ n then floorLog2 fuel (n / 2) + 1 else 0

/-- Concrete collaborators on integers: one-dimensional histograms, no systematics,
events given by the bin they fall in.  `log` is the floor of the base-two
logarithm. -/
def simple : Collaborators ℤ SimpleManager (List ℤ) SimpleShrinker (List Nat) Nat (List ℤ)
    (List (ℤ × ℤ)) Unit where
  SetParameters := fun _ p => (.ok (), p)
  ApplySystematics := fun pm _ => (.ok (), { pm with fWorkingPdfs := pm.fOriginalPdfs })
  ApplyShrink := fun pm sh =>
    (.ok (), { pm with fWorkingPdfs := pm.fWorkingPdfs.map sh.ShrinkPdf })
  SetNormalisations := fun pm w => (.ok (), { pm with fNormalisations := w })
  BinProbability := SimpleManager.BinProbability
  GetOriginalPdf := fun pm i =>
    match pm.fOriginalPdfs[i]? with
    | some pdf => .ok pdf
    | none => .error ()
  AddPdf := fun pm pdf =>
    (.ok (), { pm with fOriginalPdfs := pm.fOriginalPdfs ++ [pdf],
                       fWorkingPdfs := pm.fWorkingPdfs ++ [pdf] })
  ShrinkPdf := fun sh pdf => .ok (sh.ShrinkPdf pdf)
  SetBuffer := fun sh dim lower upper =>
    if dim = 0 then (.ok (), { sh with fLower := lower, fUpper := upper }) else (.error (), sh)
  SetUsingOverflows := fun sh b => { sh with fUsingOverflows := b }
  GetNEntries := List.length
  GetEntry := fun ds i =>
    match ds[i]? with
    | some ev => .ok ev
    | none => .error ()
  EmptyPdf := fun pdf => pdf.map (fun _ => 0)
  Fill := fun pdf ev => if ev < pdf.length then .ok (pdf.modify (fun x => x + 1) ev) else .error ()
  GetNBins := List.length
  GetBinContent := fun pdf i =>
    match pdf[i]? with
    | some x => .ok x
    | none => .error ()
  constraint := simpleConstraint
  log := fun x => (floorLog2 x.toNat x.toNat : ℤ)

/-- A `BinnedNLLH` over the concrete collaborators with component PDFs `pdfs`,
normalisations `norms`, no systematics, no buffer and no data. -/
def simpleNLLH (pdfs : List (List ℤ)) (norms : List ℤ) :
    BinnedNLLH ℤ SimpleManager (List ℤ) SimpleShrinker (List Nat) (List ℤ) (List (ℤ × ℤ)) :=
  { fPdfManager := ⟨pdfs, pdfs, []⟩, fSystematicManager := [], fPdfShrinker := ⟨0, 0, false⟩,
    fDataSet := none, fDataPdf := [], fCalculatedDataPdf := false, fNormalisations := norms,
    fSystematicParams := [], fSystematicConstraints := [],
    fNormalisationConstraints := norms.map (fun x => [(x, 1)]), fNpdfs := pdfs.length,
    fNsystematics := 0 }

/-- Kernel PDFs on integers: all mass at zero displacement, or a flat unnormalised
density. -/
inductive SimpleKernel where
  | delta
  | flat
  deriving DecidableEq, Repr

/-- The integrals of the integer kernels: `delta` gives 1 when the box
`[low, high)` contains the origin and 0 otherwise, `flat` the volume of the box. -/
def simpleKernelOps : KernelOps ℤ SimpleKernel where
  Integral := fun k low high =>
    match k with
    | .delta =>
      if (List.zipWith (fun l h => decide (l ≤ 0 ∧ 0 < h)) low high).all id then 1 else 0
    | .flat => (List.zipWith (fun l h => h - l) low high).prod
  GetParameters := fun _ => []

/-- An axis of `n` bins of width 2 starting at `lo`, named `name`. -/
def simpleAxis (name : String) (lo : ℤ) (n : Nat) : PdfAxis ℤ :=
  { fNBins := n, fMin := lo, fMax := lo + 2 * n, fName := name, fLatexName := "",
    fBinLowEdges := (List.range n).map (fun i => lo + 2 * i),
    fBinHighEdges := (List.range n).map (fun i => lo + 2 * i + 2),
    fBinCentres := (List.range n).map (fun i => lo + 2 * i + 1),
    fBinWidths := (List.range n).map (fun _ => 2) }

/-- The axis collection built by `AddAxis` from the given axes, in order; an axis
that `AddAxis` refuses is left out. -/
def simpleAxes (axes : List (PdfAxis ℤ)) : AxisCollection ℤ :=
  axes.foldl (fun c a =>
    match c.AddAxis a with
    | .ok c1 => c1
    | .error _ => c) AxisCollection.new

/-- One axis `x` of two bins, `[0, 2)` and `[2, 4)`. -/
def axesX2 : AxisCollection ℤ := simpleAxes [simpleAxis "x" 0 2]

/-- One axis `x` of three bins, `[0, 2)`, `[2, 4)` and `[4, 6)`. -/
def axesX3 : AxisCollection ℤ := simpleAxes [simpleAxis "x" 0 3]

/-- An axis `x` of three bins and an axis `y` of two bins. -/
def axesXY : AxisCollection ℤ := simpleAxes [simpleAxis "x" 0 3, simpleAxis "y" 0 2]

/-- A new convolution with kernel `pdf` acting on observable 0 of PDFs over
observable 0, after `SetPdf` and `SetAxes(axes)`. -/
def convolutionOn (pdf : SimpleKernel) (axes : AxisCollection ℤ) : Convolution ℤ SimpleKernel :=
  ((Convolution.new [0] [0]).SetPdf simpleKernelOps pdf).SetAxes axes

/-- A new convolution with the flat kernel acting on observable 1 of PDFs over
observables 0 and 1, after `SetPdf` and `SetAxes(axesXY)`. -/
def convolutionY : Convolution ℤ SimpleKernel :=
  ((Convolution.new [1] [0, 1]).SetPdf simpleKernelOps .flat).SetAxes axesXY

/-- A convolution that was constructed on the two-bin axes and then given the
three-bin axes. -/
def regrownConvolution : Convolution ℤ SimpleKernel :=
  (Convolution.Construct simpleKernelOps (convolutionOn .flat axesX2)).2.SetAxes axesX3

/-- A convolution that was constructed on the three-bin axes and then given the
two-bin axes. -/
def shrunkConvolution : Convolution ℤ SimpleKernel :=
  (Convolution.Construct simpleKernelOps (convolutionOn .flat axesX3)).2.SetAxes axesX2

/-- The likelihood of one component PDF `[1, 2, 4]` with normalisation 2, after
`SetDataPdf` with the binned data `[3, 1, 0]`. -/
def binnedExample :
    BinnedNLLH ℤ SimpleManager (List ℤ) SimpleShrinker (List Nat) (List ℤ) (List (ℤ × ℤ)) :=
  (SetDataPdf simple (simpleNLLH [[1, 2, 4]] [2]) [3, 1, 0]).2

/-- The likelihood of one component PDF `[1, 2, 4]` with normalisation 2, after
`SetDataSet` with four events, in bins 0, 0, 1 and 2. -/
def unbinnedExample :
    BinnedNLLH ℤ SimpleManager (List ℤ) SimpleShrinker (List Nat) (List ℤ) (List (ℤ × ℤ)) :=
  SetDataSet (simpleNLLH [[1, 2, 4]] [2]) (some [0, 0, 1, 2])

/-- The likelihood of one component PDF `[1, 0]` with normalisation 2, after
`SetDataPdf` with the binned data `[3, 0]`: the second bin has neither model
probability nor data. -/
def emptyBinExample :
    BinnedNLLH ℤ SimpleManager (List ℤ) SimpleShrinker (List Nat) (List ℤ) (List (ℤ × ℤ)) :=
  (SetDataPdf simple (simpleNLLH [[1, 0]] [2]) [3, 0]).2

/-- The likelihood of one component PDF `[1, 2, 4, 8]` with normalisation 2:
`SetDataPdf` with the binned data `[3, 1, 0, 2]` while no buffer is configured, then
`SetBuffer(0, 1, 1)`. -/
def bufferAfterDataPdfExample :
    BinnedNLLH ℤ SimpleManager (List ℤ) SimpleShrinker (List Nat) (List ℤ) (List (ℤ × ℤ)) :=
  (SetBuffer simple (SetDataPdf simple (simpleNLLH [[1, 2, 4, 8]] [2]) [3, 1, 0, 2]).2 0 1 1).2

/-- The likelihood of one component PDF `[1, 2, 4, 8]` with normalisation 2:
`SetBuffer(0, 1, 1)`, `SetDataPdf` with the binned data `[3, 1, 0, 2]`, then
`SetBuffer(0, 0, 0)`. -/
def bufferRemovedExample :
    BinnedNLLH ℤ SimpleManager (List ℤ) SimpleShrinker (List Nat) (List ℤ) (List (ℤ × ℤ)) :=
  (SetBuffer simple
    (SetDataPdf simple (SetBuffer simple (simpleNLLH [[1, 2, 4, 8]] [2]) 0 1 1).2
      [3, 1, 0, 2]).2 0 0 0).2

/-- The likelihood of one component PDF `[1, 2, 4, 8]` with normalisation 2:
`SetDataSet` with five events, in bins 0, 0, 1, 2 and 3, then `Evaluate()`, then
`SetBuffer(0, 1, 1)`. -/
def bufferAfterEvaluateExample :
    BinnedNLLH ℤ SimpleManager (List ℤ) SimpleShrinker (List Nat) (List ℤ) (List (ℤ × ℤ)) :=
  (SetBuffer simple
    (Evaluate simple (SetDataSet (simpleNLLH [[1, 2, 4, 8]] [2]) (some [0, 0, 1, 2, 3]))).2
    0 1 1).2

/-! ## Integer-valued doubles -/

/-- The nearest integer to `x` that has at most 53 significant bits, a tie going to
the even significand: the result of IEEE binary64 round-to-nearest on the integer
`x` (below `2^1024` in size). -/
def roundToDouble (x : ℤ) : ℤ :=
  let n := x.natAbs
  let bits := if n = 0 then 0 else floorLog2 n n + 1
  if bits ≤ 53 then x
  else
    let unit := 2 ^ (bits - 53)
    let q := n / unit
    let r := n % unit
    let q1 := if unit < 2 * r ∨ (2 * r = unit ∧ q % 2 = 1) then q + 1 else q
    x.sign * ((q1 * unit : Nat) : ℤ)

/-- A `double` whose value is an integer, with the IEEE arithmetic on such values:
each of `+`, `-`, `*` is the exact result rounded by `roundToDouble`. -/
structure IntDouble where
  val : ℤ
  deriving DecidableEq, Repr

instance : Zero IntDouble := ⟨⟨0⟩⟩

instance : Add IntDouble := ⟨fun a b => ⟨roundToDouble (a.val + b.val)⟩⟩

instance : Sub IntDouble := ⟨fun a b => ⟨roundToDouble (a.val - b.val)⟩⟩

instance : Mul IntDouble := ⟨fun a b => ⟨roundToDouble (a.val * b.val)⟩⟩

instance : Neg IntDouble := ⟨fun a => ⟨-a.val⟩⟩

/-- Modelled from the spec: a `BinnedPdfManager` over one-dimensional histograms
whose contents are integer-valued doubles. -/
structure RoundedManager where
  fOriginalPdfs : List (List IntDouble)
  fWorkingPdfs : List (List IntDouble)
  fNormalisations : List IntDouble
  deriving DecidableEq, Repr

/-- Modelled from the spec: `PdfShrinker::ShrinkPdf` in one dimension on
integer-valued doubles: the buffer bins are dropped, and with `UsingOverflows`
their content is folded into the new first and last bin. -/
def SimpleShrinker.ShrinkRounded (sh : SimpleShrinker) (pdf : List IntDouble) :
    List IntDouble :=
  let kept := (pdf.drop sh.fLower).take (pdf.length - sh.fLower - sh.fUpper)
  if sh.fUsingOverflows then
    let under := (pdf.take sh.fLower).foldl (fun a x => a + x) 0
    let over := (pdf.drop (pdf.length - sh.fUpper)).foldl (fun a x => a + x) 0
    let kept1 := kept.modify (fun x => x + under) 0
    kept1.modify (fun x => x + over) (kept1.length - 1)
  else kept

/-- Modelled from the spec: `BinnedPdfManager::BinProbability` on integer-valued
doubles, the weighted sum of the working PDFs' content at `bin`, accumulated from
0 in the order of the components. -/
def RoundedManager.BinProbability (m : RoundedManager) (bin : Nat) : Except Unit IntDouble :=
  if m.fWorkingPdfs.all (fun pdf => decide (bin < pdf.length)) then
    .ok ((List.zipWith (fun w pdf => w * pdf.getD bin 0) m.fNormalisations
      m.fWorkingPdfs).foldl (fun a x => a + x) 0)
  else .error ()

/-- Modelled from the spec: `QuadraticConstraint::operator()` with unit widths on
integer-valued doubles, the penalty `Σ (x_i − x0_i)²` accumulated from 0 in order. -/
def roundedConstraint (c : List IntDouble) (params : List IntDouble) : Except Unit IntDouble :=
  if c.length ≠ params.length then .error ()
  else .ok ((List.zipWith (fun t x => (x - t) * (x - t)) c params).foldl (fun a x => a + x) 0)

/-- Concrete collaborators on integer-valued doubles: one-dimensional histograms, no
systematics, events given by the bin they fall in.  `log` is the floor of the
base-two logarithm, which is `log` itself at 1. -/
def rounded : Collaborators IntDouble RoundedManager (List IntDouble) SimpleShrinker (List Nat)
    Nat (List IntDouble) (List IntDouble) Unit where
  SetParameters := fun _ p => (.ok (), p)
  ApplySystematics := fun pm _ => (.ok (), { pm with fWorkingPdfs := pm.fOriginalPdfs })
  ApplyShrink := fun pm sh =>
    (.ok (), { pm with fWorkingPdfs := pm.fWorkingPdfs.map sh.ShrinkRounded })
  SetNormalisations := fun pm w => (.ok (), { pm with fNormalisations := w })
  BinProbability := RoundedManager.BinProbability
  GetOriginalPdf := fun pm i =>
    match pm.fOriginalPdfs[i]? with
    | some pdf => .ok pdf
    | none => .error ()
  AddPdf := fun pm pdf =>
    (.ok (), { pm with fOriginalPdfs := pm.fOriginalPdfs ++ [pdf],
                       fWorkingPdfs := pm.fWorkingPdfs ++ [pdf] })
  ShrinkPdf := fun sh pdf => .ok (sh.ShrinkRounded pdf)
  SetBuffer := fun sh dim lower upper =>
    if dim = 0 then (.ok (), { sh with fLower := lower, fUpper := upper }) else (.error (), sh)
  SetUsingOverflows := fun sh b => { sh with fUsingOverflows := b }
  GetNEntries := List.length
  GetEntry := fun ds i =>
    match ds[i]? with
    | some ev => .ok ev
    | none => .error ()
  EmptyPdf := fun pdf => pdf.map (fun _ => 0)
  Fill := fun pdf ev =>
    if ev < pdf.length then .ok (pdf.modify (fun x => x + ⟨1⟩) ev) else .error ()
  GetNBins := List.length
  GetBinContent := fun pdf i =>
    match pdf[i]? with
    | some x => .ok x
    | none => .error ()
  constraint := roundedConstraint
  log := fun x => ⟨(floorLog2 x.val.toNat x.val.toNat : ℤ)⟩

/-- The likelihood on integer-valued doubles of one component PDF `[1]` with
normalisation `2^53` and two normalisation constraints with target `2^53 - 1` and
unit width, after `SetDataPdf` with the binned data `[0]`. -/
def roundingExample :
    BinnedNLLH IntDouble RoundedManager (List IntDouble) SimpleShrinker (List Nat)
      (List IntDouble) (List IntDouble) :=
  (SetDataPdf rounded
    { fPdfManager := ⟨[[⟨1⟩]], [[⟨1⟩]], []⟩, fSystematicManager := [],
      fPdfShrinker := ⟨0, 0, false⟩, fDataSet := none, fDataPdf := [],
      fCalculatedDataPdf := false, fNormalisations := [⟨9007199254740992⟩],
      fSystematicParams := [], fSystematicConstraints := [],
      fNormalisationConstraints := [[⟨9007199254740991⟩], [⟨9007199254740991⟩]],
      fNpdfs := 1, fNsystematics := 0 } [⟨0⟩]).2

/-- Two bins on each of three axes `x`, `y` and `z`. -/
def axesXYZ : AxisCollection ℤ :=
  simpleAxes [simpleAxis "x" 0 2, simpleAxis "y" 0 2, simpleAxis "z" 0 2]

/-- An axis `x` of two bins and an axis `y` of three bins. -/
def axesX2Y3 : AxisCollection ℤ := simpleAxes [simpleAxis "x" 0 2, simpleAxis "y" 0 3]

/-- A new convolution with the flat kernel acting on observables 0 and 2 of PDFs
over observables 0, 1 and 2, after `SetPdf` and `SetAxes(axes)`. -/
def convolutionXZ (axes : AxisCollection ℤ) : Convolution ℤ SimpleKernel :=
  ((Convolution.new [0, 2] [0, 1, 2]).SetPdf simpleKernelOps .flat).SetAxes axes

/-- The convolution `convolutionXZ` given the one-axis collection `axesX3`, after a
`Construct()` (which throws) and `SetAxes(axesXYZ)`. -/
def retriedConvolution : Convolution ℤ SimpleKernel :=
  (Convolution.Construct simpleKernelOps (convolutionXZ axesX3)).2.SetAxes axesXYZ

/-- The convolution `convolutionY` after `Construct()` on `axesXY` and
`SetAxes(axesX2Y3)`. -/
def reaxedConvolution : Convolution ℤ SimpleKernel :=
  (Convolution.Construct simpleKernelOps convolutionY).2.SetAxes axesX2Y3

/-- A new convolution with the flat kernel acting on observable 1 of PDFs over
observables 0 and 1, after `SetPdf` and `SetAxes(axesX2Y3)`. -/
def convolutionY3 : Convolution ℤ SimpleKernel :=
  ((Convolution.new [1] [0, 1]).SetPdf simpleKernelOps .flat).SetAxes axesX2Y3

end Oxsx

namespace Oxsx

/-! ## Properties of BinnedNLLH -/

section NLLHProofs

variable {α PM SM SH DS EV PDF QC E : Type}

/-- A successful per-bin loop read a nonzero probability and a content for every
bin, and subtracted each `content * log prob` from the accumulator, bin after bin. -/
theorem binLoop_ok [Zero α] [Add α] [Sub α] [Mul α] [DecidableEq α]
    (K : Collaborators α PM SM SH DS EV PDF QC E)
    (pm : PM) (data : PDF) (bins : List Nat) (acc v : α)
    (h : binLoop K pm data bins acc = .ok v) :
    ∃ probs contents : List α,
      List.Forall₂ (fun i p => K.BinProbability pm i = .ok p ∧ p ≠ 0) bins probs ∧
      List.Forall₂ (fun i d => K.GetBinContent data i = .ok d) bins contents ∧
      v = (List.zip contents probs).foldl (fun nLogLH t => nLogLH - t.1 * K.log t.2) acc := by
  induction bins generalizing acc with
  | nil =>
    simp only [binLoop, Except.ok.injEq] at h
    exact ⟨[], [], List.Forall₂.nil, List.Forall₂.nil, by simp [h]⟩
  | cons i rest ih =>
    simp only [binLoop] at h
    split at h
    · cases h
    · rename_i prob hp
      split at h
      · cases h
      · rename_i hne
        split at h
        · cases h
        · rename_i content hc
          obtain ⟨probs, contents, h1, h2, h3⟩ := ih _ h
          refine ⟨prob :: probs, content :: contents, List.Forall₂.cons ⟨hp, hne⟩ h1,
            List.Forall₂.cons hc h2, ?_⟩
          rw [h3]
          rfl

/-- A successful constraint loop evaluated every constraint and added the values to
the accumulator, one after the other. -/
theorem constraintLoop_ok [Add α] (K : Collaborators α PM SM SH DS EV PDF QC E)
    (params : List α) (cs : List QC) (acc v : α)
    (h : constraintLoop K params cs acc = .ok v) :
    ∃ xs : List α, List.Forall₂ (fun c x => K.constraint c params = .ok x) cs xs ∧
      v = xs.foldl (fun nLogLH x => nLogLH + x) acc := by
  induction cs generalizing acc with
  | nil =>
    simp only [constraintLoop, Except.ok.injEq] at h
    exact ⟨[], List.Forall₂.nil, by simp [h]⟩
  | cons c rest ih =>
    simp only [constraintLoop] at h
    split at h
    · cases h
    · rename_i x hx
      obtain ⟨xs, h1, h2⟩ := ih _ h
      refine ⟨x :: xs, List.Forall₂.cons hx h1, ?_⟩
      rw [h2]
      rfl

/-- In exact arithmetic, adding the entries of a list one after the other adds
their sum. -/
theorem foldl_add_eq [Ring α] (xs : List α) (acc : α) :
    xs.foldl (fun a x => a + x) acc = acc + xs.sum := by
  induction xs generalizing acc with
  | nil => simp
  | cons x rest ih => simp only [List.foldl_cons, List.sum_cons, ih]; abel

/-- In exact arithmetic, subtracting `content * log prob` bin after bin subtracts
the sum of these products. -/
theorem foldl_sub_eq [Ring α] (f : α → α) (contents probs : List α) (acc : α) :
    (List.zip contents probs).foldl (fun a t => a - t.1 * f t.2) acc
      = acc - (List.zipWith (fun d p => d * f p) contents probs).sum := by
  induction contents generalizing probs acc with
  | nil => simp
  | cons d rest ih =>
    cases probs with
    | nil => simp
    | cons p ps =>
      simp only [List.zip_cons_cons, List.foldl_cons, List.zipWith_cons_cons, List.sum_cons, ih]
      abel

/-- The per-bin loop never raises the data-missing error. -/
theorem binLoop_ne_dataException [Zero α] [Add α] [Sub α] [Mul α] [DecidableEq α]
    (K : Collaborators α PM SM SH DS EV PDF QC E)
    (pm : PM) (data : PDF) (bins : List Nat) (acc : α) :
    binLoop K pm data bins acc ≠ .error .DataException := by
  induction bins generalizing acc with
  | nil => simp [binLoop]
  | cons i rest ih =>
    simp only [binLoop]
    split
    · simp
    · split
      · simp
      · split
        · simp
        · exact ih _

/-- A constraint loop fails only with a collaborator's exception. -/
theorem constraintLoop_error [Add α] (K : Collaborators α PM SM SH DS EV PDF QC E)
    (params : List α) (cs : List QC) (acc : α) (e : NLLHError E)
    (h : constraintLoop K params cs acc = .error e) : ∃ e0, e = .Collaborator e0 := by
  induction cs generalizing acc with
  | nil => simp [constraintLoop] at h
  | cons c rest ih =>
    simp only [constraintLoop] at h
    split at h
    · rename_i e0 _
      exact ⟨e0, by cases h; rfl⟩
    · exact ih _ h

/-- What a successful `evaluateBody` did. -/
theorem evaluateBody_ok [Zero α] [Add α] [Sub α] [Mul α] [DecidableEq α]
    (K : Collaborators α PM SM SH DS EV PDF QC E)
    (s s1 : BinnedNLLH α PM SM SH DS PDF QC) (v : α)
    (h : evaluateBody K s = (.ok v, s1)) :
    ∃ (sm : SM) (pm1 pm2 pm3 : PM) (nLogLH : α),
      K.SetParameters s.fSystematicManager s.fSystematicParams = (.ok (), sm) ∧
      K.ApplySystematics s.fPdfManager sm = (.ok (), pm1) ∧
      K.ApplyShrink pm1 s.fPdfShrinker = (.ok (), pm2) ∧
      K.SetNormalisations pm2 s.fNormalisations = (.ok (), pm3) ∧
      s1 = { s with fSystematicManager := sm, fPdfManager := pm3 } ∧
      binLoop K pm3 s.fDataPdf (List.range (K.GetNBins s.fDataPdf)) 0 = .ok nLogLH ∧
      ∃ a b, constraintLoop K s.fSystematicParams s.fSystematicConstraints
          (s.fNormalisations.foldl (fun acc x => acc + x) nLogLH) = .ok a ∧
        constraintLoop K s.fNormalisations s.fNormalisationConstraints a = .ok b ∧ v = b := by
  unfold evaluateBody at h
  split at h
  · cases h
  · rename_i u1 sm h1
    split at h
    · cases h
    · rename_i u2 pm1 h2
      split at h
      · cases h
      · rename_i u3 pm2 h3
        split at h
        · cases h
        · rename_i u4 pm3 h4
          simp only at h
          split at h
          · cases h
          · rename_i nLogLH h5
            split at h
            · cases h
            · rename_i a h6
              split at h
              · cases h
              · rename_i b h7
                simp only [Prod.mk.injEq, Except.ok.injEq] at h
                exact ⟨sm, pm1, pm2, pm3, nLogLH, h1, h2, h3, h4, h.2.symm, h5, a, b, h6, h7,
                  h.1.symm⟩

end NLLHProofs

end Oxsx

namespace Oxsx

section NLLHProofs2

variable {α PM SM SH DS EV PDF QC E : Type}

/-- `BinData` fails only with a collaborator's exception or on a null dataset, and
then leaves the object as it was. -/
theorem BinData_error (K : Collaborators α PM SM SH DS EV PDF QC E)
    (s s1 : BinnedNLLH α PM SM SH DS PDF QC) (e : NLLHError E)
    (h : BinData K s = (.error e, s1)) :
    s1 = s ∧ (e = .NullDataSet ∨ ∃ e0, e = .Collaborator e0) := by
  unfold BinData at h
  split at h
  · simp only [Prod.mk.injEq, Except.error.injEq] at h
    exact ⟨h.2.symm, Or.inr ⟨_, h.1.symm⟩⟩
  · split at h
    · simp only [Prod.mk.injEq, Except.error.injEq] at h
      exact ⟨h.2.symm, Or.inl h.1.symm⟩
    · split at h
      · simp only [Prod.mk.injEq, Except.error.injEq] at h
        exact ⟨h.2.symm, Or.inr ⟨_, h.1.symm⟩⟩
      · split at h
        · simp only [Prod.mk.injEq, Except.error.injEq] at h
          exact ⟨h.2.symm, Or.inr ⟨_, h.1.symm⟩⟩
        · simp at h

/-- A successful `BinData` replaces the data PDF, sets the flag and touches nothing
else. -/
theorem BinData_ok (K : Collaborators α PM SM SH DS EV PDF QC E)
    (s s1 : BinnedNLLH α PM SM SH DS PDF QC) (h : BinData K s = (.ok (), s1)) :
    ∃ shrunk, s1 = { s with fDataPdf := shrunk, fCalculatedDataPdf := true } := by
  unfold BinData at h
  split at h
  · simp at h
  · split at h
    · simp at h
    · split at h
      · simp at h
      · split at h
        · simp at h
        · simp only [Prod.mk.injEq, true_and] at h
          exact ⟨_, h.symm⟩

/-- The per-bin loop fails only with the zero-probability error or a collaborator's
exception. -/
theorem binLoop_error [Zero α] [Add α] [Sub α] [Mul α] [DecidableEq α]
    (K : Collaborators α PM SM SH DS EV PDF QC E)
    (pm : PM) (data : PDF) (bins : List Nat) (acc : α) (e : NLLHError E)
    (h : binLoop K pm data bins acc = .error e) :
    e = .ZeroProbability ∨ ∃ e0, e = .Collaborator e0 := by
  induction bins generalizing acc with
  | nil => simp [binLoop] at h
  | cons i rest ih =>
    simp only [binLoop] at h
    split at h
    · exact Or.inr ⟨_, by cases h; rfl⟩
    · split at h
      · exact Or.inl (by cases h; rfl)
      · split at h
        · exact Or.inr ⟨_, by cases h; rfl⟩
        · exact ih _ h

/-- `evaluateBody` fails only with the zero-probability error or a collaborator's
exception. -/
theorem evaluateBody_error [Zero α] [Add α] [Sub α] [Mul α] [DecidableEq α]
    (K : Collaborators α PM SM SH DS EV PDF QC E)
    (s s1 : BinnedNLLH α PM SM SH DS PDF QC) (e : NLLHError E)
    (h : evaluateBody K s = (.error e, s1)) :
    e = .ZeroProbability ∨ ∃ e0, e = .Collaborator e0 := by
  unfold evaluateBody at h
  split at h
  · exact Or.inr ⟨_, by cases h; rfl⟩
  · split at h
    · exact Or.inr ⟨_, by cases h; rfl⟩
    · split at h
      · exact Or.inr ⟨_, by cases h; rfl⟩
      · split at h
        · exact Or.inr ⟨_, by cases h; rfl⟩
        · simp only at h
          split at h
          · rename_i e1 h5
            simp only [Prod.mk.injEq, Except.error.injEq] at h
            rw [← h.1]
            exact binLoop_error K _ _ _ _ _ h5
          · split at h
            · rename_i e1 h6
              simp only [Prod.mk.injEq, Except.error.injEq] at h
              rw [← h.1]
              exact Or.inr (constraintLoop_error K _ _ _ _ h6)
            · split at h
              · rename_i e1 h7
                simp only [Prod.mk.injEq, Except.error.injEq] at h
                rw [← h.1]
                exact Or.inr (constraintLoop_error K _ _ _ _ h7)
              · simp at h

/-- `Evaluate` with the data PDF cached is `evaluateBody`. -/
theorem Evaluate_cached [Zero α] [Add α] [Sub α] [Mul α] [DecidableEq α]
    (K : Collaborators α PM SM SH DS EV PDF QC E)
    (s : BinnedNLLH α PM SM SH DS PDF QC) (h : s.fCalculatedDataPdf = true) :
    Evaluate K s = evaluateBody K s := by
  simp [Evaluate, h]

/-- `Evaluate` with no cached data PDF but a dataset bins the data first; when that
fails, so does `Evaluate`. -/
theorem Evaluate_uncached_error [Zero α] [Add α] [Sub α] [Mul α] [DecidableEq α]
    (K : Collaborators α PM SM SH DS EV PDF QC E)
    (s s1 : BinnedNLLH α PM SM SH DS PDF QC) (h : s.fCalculatedDataPdf = false) (d : DS)
    (hd : s.fDataSet = some d) (e : NLLHError E) (hb : BinData K s = (.error e, s1)) :
    Evaluate K s = (.error e, s1) := by
  simp [Evaluate, h, hd, hb]

/-- `Evaluate` with no cached data PDF but a dataset bins the data first and goes on
with the state that leaves. -/
theorem Evaluate_uncached_ok [Zero α] [Add α] [Sub α] [Mul α] [DecidableEq α]
    (K : Collaborators α PM SM SH DS EV PDF QC E)
    (s s1 : BinnedNLLH α PM SM SH DS PDF QC) (h : s.fCalculatedDataPdf = false) (d : DS)
    (hd : s.fDataSet = some d) (hb : BinData K s = (.ok (), s1)) :
    Evaluate K s = evaluateBody K s1 := by
  simp [Evaluate, h, hd, hb]

/-- `Evaluate` with neither a dataset nor a cached data PDF. -/
theorem Evaluate_nodata [Zero α] [Add α] [Sub α] [Mul α] [DecidableEq α]
    (K : Collaborators α PM SM SH DS EV PDF QC E)
    (s : BinnedNLLH α PM SM SH DS PDF QC) (h : s.fCalculatedDataPdf = false)
    (hd : s.fDataSet = none) :
    Evaluate K s = (.error .DataException, s) := by
  simp [Evaluate, h, hd]

/-- A successful `Evaluate` ran `evaluateBody` on a state that differs from the
initial one at most in the data PDF and its flag, which is set. -/
theorem Evaluate_ok [Zero α] [Add α] [Sub α] [Mul α] [DecidableEq α]
    (K : Collaborators α PM SM SH DS EV PDF QC E)
    (s s1 : BinnedNLLH α PM SM SH DS PDF QC) (v : α) (h : Evaluate K s = (.ok v, s1)) :
    ∃ data, evaluateBody K { s with fDataPdf := data, fCalculatedDataPdf := true } = (.ok v, s1) ∧
      (s.fCalculatedDataPdf = true → data = s.fDataPdf) := by
  cases hc : s.fCalculatedDataPdf with
  | true =>
    rw [Evaluate_cached K s hc] at h
    refine ⟨s.fDataPdf, ?_, fun _ => rfl⟩
    have : { s with fDataPdf := s.fDataPdf, fCalculatedDataPdf := true } = s := by
      cases s; simp_all
    rw [this]; exact h
  | false =>
    rcases Option.eq_none_or_eq_some s.fDataSet with hd | ⟨d, hd⟩
    · rw [Evaluate_nodata K s hc hd] at h; simp at h
    · rcases hb : BinData K s with ⟨r, s0⟩
      cases r with
      | error e => rw [Evaluate_uncached_error K s s0 hc d hd e hb] at h; simp at h
      | ok u =>
        rw [Evaluate_uncached_ok K s s0 hc d hd hb] at h
        obtain ⟨shrunk, rfl⟩ := BinData_ok K s s0 hb
        exact ⟨shrunk, h, fun hh => by simp at hh⟩

end NLLHProofs2

end Oxsx

namespace Oxsx

section NLLHProofs3

variable {α PM SM SH DS EV PDF QC E : Type}

/-- The converse of `evaluateBody_ok`. -/
theorem evaluateBody_of [Zero α] [Add α] [Sub α] [Mul α] [DecidableEq α]
    (K : Collaborators α PM SM SH DS EV PDF QC E)
    (s : BinnedNLLH α PM SM SH DS PDF QC) (sm : SM) (pm1 pm2 pm3 : PM) (nLogLH a b : α)
    (h1 : K.SetParameters s.fSystematicManager s.fSystematicParams = (.ok (), sm))
    (h2 : K.ApplySystematics s.fPdfManager sm = (.ok (), pm1))
    (h3 : K.ApplyShrink pm1 s.fPdfShrinker = (.ok (), pm2))
    (h4 : K.SetNormalisations pm2 s.fNormalisations = (.ok (), pm3))
    (h5 : binLoop K pm3 s.fDataPdf (List.range (K.GetNBins s.fDataPdf)) 0 = .ok nLogLH)
    (h6 : constraintLoop K s.fSystematicParams s.fSystematicConstraints
          (s.fNormalisations.foldl (fun acc x => acc + x) nLogLH) = .ok a)
    (h7 : constraintLoop K s.fNormalisations s.fNormalisationConstraints a = .ok b) :
    evaluateBody K s = (.ok b, { s with fSystematicManager := sm, fPdfManager := pm3 }) := by
  unfold evaluateBody
  simp only [h1, h2, h3, h4, h5, h6, h7]

/-- **C8.** With collaborators that re-derive their working state (`Rederives`), an
`Evaluate()` that succeeds with value `v` leaves a state on which `Evaluate()`
succeeds again with the same value `v`, and which that second call leaves as it
is. -/
theorem evaluate_twice_same [Zero α] [Add α] [Sub α] [Mul α] [DecidableEq α]
    (K : Collaborators α PM SM SH DS EV PDF QC E) (hK : Rederives K)
    (s s1 : BinnedNLLH α PM SM SH DS PDF QC) (v : α) (h : Evaluate K s = (.ok v, s1)) :
    Evaluate K s1 = (.ok v, s1) := by
  obtain ⟨data, hbody, -⟩ := Evaluate_ok K s s1 v h
  obtain ⟨sm, pm1, pm2, pm3, nLogLH, h1, h2, h3, h4, hs1, h5, a, b, h6, h7, hv⟩ :=
    evaluateBody_ok K _ s1 v hbody
  subst hs1
  subst hv
  obtain ⟨pm4, pm5, g2, g3, g4⟩ := hK.2 _ _ _ _ _ _ _ h2 h3 h4
  rw [Evaluate_cached K _ rfl]
  exact evaluateBody_of K _ sm pm4 pm5 pm3 nLogLH a v (hK.1 _ _ _ h1) g2 g3 g4 h5 h6 h7

end NLLHProofs3

end Oxsx

namespace Oxsx

section NLLHProofs4

variable {α PM SM SH DS EV PDF QC E : Type}

/-- The value of a successful `Evaluate`, accumulated in the order of the code, with
no law of arithmetic assumed. -/
theorem Evaluate_value_fold [Zero α] [Add α] [Sub α] [Mul α] [DecidableEq α]
    (K : Collaborators α PM SM SH DS EV PDF QC E)
    (s s1 : BinnedNLLH α PM SM SH DS PDF QC) (v : α) (h : Evaluate K s = (.ok v, s1)) :
    ∃ (pm1 pm2 : PM) (probs contents sysPen normPen : List α),
      K.SetParameters s.fSystematicManager s.fSystematicParams
        = (.ok (), s1.fSystematicManager) ∧
      K.ApplySystematics s.fPdfManager s1.fSystematicManager = (.ok (), pm1) ∧
      K.ApplyShrink pm1 s.fPdfShrinker = (.ok (), pm2) ∧
      K.SetNormalisations pm2 s.fNormalisations = (.ok (), s1.fPdfManager) ∧
      s1.fCalculatedDataPdf = true ∧
      s1.fNormalisations = s.fNormalisations ∧
      s1.fSystematicParams = s.fSystematicParams ∧
      List.Forall₂ (fun i p => K.BinProbability s1.fPdfManager i = .ok p ∧ p ≠ 0)
        (List.range (K.GetNBins s1.fDataPdf)) probs ∧
      List.Forall₂ (fun i d => K.GetBinContent s1.fDataPdf i = .ok d)
        (List.range (K.GetNBins s1.fDataPdf)) contents ∧
      List.Forall₂ (fun c x => K.constraint c s.fSystematicParams = .ok x)
        s.fSystematicConstraints sysPen ∧
      List.Forall₂ (fun c x => K.constraint c s.fNormalisations = .ok x)
        s.fNormalisationConstraints normPen ∧
      v = normPen.foldl (fun nLogLH x => nLogLH + x)
            (sysPen.foldl (fun nLogLH x => nLogLH + x)
              (s.fNormalisations.foldl (fun nLogLH x => nLogLH + x)
                ((List.zip contents probs).foldl
                  (fun nLogLH t => nLogLH - t.1 * K.log t.2) 0))) := by
  obtain ⟨data, hbody, -⟩ := Evaluate_ok K s s1 v h
  obtain ⟨sm, pm1, pm2, pm3, nLogLH, h1, h2, h3, h4, hs1, h5, a, b, h6, h7, hv⟩ :=
    evaluateBody_ok K _ s1 v hbody
  subst hs1
  obtain ⟨probs, contents, hp, hc, hn⟩ := binLoop_ok K _ _ _ _ _ h5
  obtain ⟨sysPen, hsys, ha⟩ := constraintLoop_ok K _ _ _ _ h6
  obtain ⟨normPen, hnorm, hb⟩ := constraintLoop_ok K _ _ _ _ h7
  refine ⟨pm1, pm2, probs, contents, sysPen, normPen, h1, h2, h3, h4, rfl, rfl, rfl, hp, hc,
    hsys, hnorm, ?_⟩
  rw [hv, hb, ha, hn]

/-- **C1, as the code has it.** When `Evaluate()` returns `v`, the four preparation
steps succeeded in order (systematic parameters pushed, systematics applied, shrink
applied, normalisations set), every bin of the cached data PDF has a content and a
nonzero `BinProbability` in the PDF manager as those steps left it, every constraint
has a value, and `v` is what one accumulator holds after these steps in this order:
start from 0, subtract `content(i) * log(prob(i))` for each bin in increasing `i`,
add each normalisation in order, add each systematic constraint in order, add each
normalisation constraint in order.  No law of arithmetic is assumed: every operation
is the one of the carrier, as rounded as it is there. -/
theorem evaluate_value [Zero α] [Add α] [Sub α] [Mul α] [DecidableEq α]
    (K : Collaborators α PM SM SH DS EV PDF QC E)
    (s s1 : BinnedNLLH α PM SM SH DS PDF QC) (v : α) (h : Evaluate K s = (.ok v, s1)) :
    ∃ (pm1 pm2 : PM) (probs contents sysPen normPen : List α),
      K.SetParameters s.fSystematicManager s.fSystematicParams
        = (.ok (), s1.fSystematicManager) ∧
      K.ApplySystematics s.fPdfManager s1.fSystematicManager = (.ok (), pm1) ∧
      K.ApplyShrink pm1 s.fPdfShrinker = (.ok (), pm2) ∧
      K.SetNormalisations pm2 s.fNormalisations = (.ok (), s1.fPdfManager) ∧
      s1.fCalculatedDataPdf = true ∧
      s1.fNormalisations = s.fNormalisations ∧
      s1.fSystematicParams = s.fSystematicParams ∧
      List.Forall₂ (fun i p => K.BinProbability s1.fPdfManager i = .ok p ∧ p ≠ 0)
        (List.range (K.GetNBins s1.fDataPdf)) probs ∧
      List.Forall₂ (fun i d => K.GetBinContent s1.fDataPdf i = .ok d)
        (List.range (K.GetNBins s1.fDataPdf)) contents ∧
      List.Forall₂ (fun c x => K.constraint c s.fSystematicParams = .ok x)
        s.fSystematicConstraints sysPen ∧
      List.Forall₂ (fun c x => K.constraint c s.fNormalisations = .ok x)
        s.fNormalisationConstraints normPen ∧
      v = normPen.foldl (fun nLogLH x => nLogLH + x)
            (sysPen.foldl (fun nLogLH x => nLogLH + x)
              (s.fNormalisations.foldl (fun nLogLH x => nLogLH + x)
                ((List.zip contents probs).foldl
                  (fun nLogLH t => nLogLH - t.1 * K.log t.2) 0))) :=
  Evaluate_value_fold K s s1 v h

/-- In exact arithmetic (a ring) the accumulated value of a successful `Evaluate` is
the grouped formula `-(Σ content(i) * log(prob(i))) + Σ normalisations
+ Σ systematic constraints + Σ normalisation constraints`. -/
theorem Evaluate_value_exact [Ring α] [DecidableEq α]
    (K : Collaborators α PM SM SH DS EV PDF QC E)
    (s s1 : BinnedNLLH α PM SM SH DS PDF QC) (v : α) (h : Evaluate K s = (.ok v, s1)) :
    ∃ (pm1 pm2 : PM) (probs contents sysPen normPen : List α),
      K.SetParameters s.fSystematicManager s.fSystematicParams
        = (.ok (), s1.fSystematicManager) ∧
      K.ApplySystematics s.fPdfManager s1.fSystematicManager = (.ok (), pm1) ∧
      K.ApplyShrink pm1 s.fPdfShrinker = (.ok (), pm2) ∧
      K.SetNormalisations pm2 s.fNormalisations = (.ok (), s1.fPdfManager) ∧
      s1.fCalculatedDataPdf = true ∧
      s1.fNormalisations = s.fNormalisations ∧
      s1.fSystematicParams = s.fSystematicParams ∧
      List.Forall₂ (fun i p => K.BinProbability s1.fPdfManager i = .ok p ∧ p ≠ 0)
        (List.range (K.GetNBins s1.fDataPdf)) probs ∧
      List.Forall₂ (fun i d => K.GetBinContent s1.fDataPdf i = .ok d)
        (List.range (K.GetNBins s1.fDataPdf)) contents ∧
      List.Forall₂ (fun c x => K.constraint c s.fSystematicParams = .ok x)
        s.fSystematicConstraints sysPen ∧
      List.Forall₂ (fun c x => K.constraint c s.fNormalisations = .ok x)
        s.fNormalisationConstraints normPen ∧
      v = -(List.zipWith (fun d p => d * K.log p) contents probs).sum
            + s.fNormalisations.sum + sysPen.sum + normPen.sum := by
  obtain ⟨pm1, pm2, probs, contents, sysPen, normPen, h1, h2, h3, h4, h5, h6, h7, hp, hc,
    hsys, hnorm, hv⟩ := Evaluate_value_fold K s s1 v h
  refine ⟨pm1, pm2, probs, contents, sysPen, normPen, h1, h2, h3, h4, h5, h6, h7, hp, hc,
    hsys, hnorm, ?_⟩
  rw [hv, foldl_add_eq, foldl_add_eq, foldl_add_eq, foldl_sub_eq]
  simp

/-- `Evaluate` on `binnedExample` returns -3 and satisfies the conclusion of
`evaluate_value`. -/
theorem evaluate_value_witness :
    Evaluate simple binnedExample
      = (.ok (-3), { binnedExample with fPdfManager := ⟨[[1, 2, 4]], [[1, 2, 4]], [2]⟩ }) ∧
    ∃ (pm1 pm2 : SimpleManager) (probs contents sysPen normPen : List ℤ),
      simple.SetParameters binnedExample.fSystematicManager binnedExample.fSystematicParams
        = (.ok (), []) ∧
      simple.ApplySystematics binnedExample.fPdfManager [] = (.ok (), pm1) ∧
      simple.ApplyShrink pm1 binnedExample.fPdfShrinker = (.ok (), pm2) ∧
      simple.SetNormalisations pm2 binnedExample.fNormalisations
        = (.ok (), ⟨[[1, 2, 4]], [[1, 2, 4]], [2]⟩) ∧
      true = true ∧
      binnedExample.fNormalisations = binnedExample.fNormalisations ∧
      binnedExample.fSystematicParams = binnedExample.fSystematicParams ∧
      List.Forall₂ (fun i p => simple.BinProbability ⟨[[1, 2, 4]], [[1, 2, 4]], [2]⟩ i = .ok p
          ∧ p ≠ 0) (List.range (simple.GetNBins binnedExample.fDataPdf)) probs ∧
      List.Forall₂ (fun i d => simple.GetBinContent binnedExample.fDataPdf i = .ok d)
        (List.range (simple.GetNBins binnedExample.fDataPdf)) contents ∧
      List.Forall₂ (fun c x => simple.constraint c binnedExample.fSystematicParams = .ok x)
        binnedExample.fSystematicConstraints sysPen ∧
      List.Forall₂ (fun c x => simple.constraint c binnedExample.fNormalisations = .ok x)
        binnedExample.fNormalisationConstraints normPen ∧
      (-3 : ℤ) = normPen.foldl (fun nLogLH x => nLogLH + x)
            (sysPen.foldl (fun nLogLH x => nLogLH + x)
              (binnedExample.fNormalisations.foldl (fun nLogLH x => nLogLH + x)
                ((List.zip contents probs).foldl
                  (fun nLogLH t => nLogLH - t.1 * simple.log t.2) 0))) :=
  ⟨by decide, evaluate_value simple binnedExample
    { binnedExample with fPdfManager := ⟨[[1, 2, 4]], [[1, 2, 4]], [2]⟩ } (-3) (by decide)⟩

/-- **C1 fails as stated.** On doubles the grouped formula is not what `Evaluate()`
returns.  In `roundingExample` the one data bin has content 0 and probability
`2^53`, the normalisation is `2^53`, there is no systematic constraint and each of
the two normalisation constraints has the value 1.  `Evaluate()` adds the two
constraints to `2^53` one after the other, each sum rounding back to `2^53`, and
returns `2^53`; the grouped formula `-(Σ content * log prob) + Σ normalisations
+ Σ systematic constraints + Σ normalisation constraints` is `-0 + 2^53 + 0 + 2`,
which is `2^53 + 2`. -/
theorem evaluate_value_not_grouped :
    roundingExample.fCalculatedDataPdf = true ∧
    Evaluate rounded roundingExample
      = (.ok ⟨9007199254740992⟩,
          { roundingExample with
            fPdfManager := ⟨[[⟨1⟩]], [[⟨1⟩]], [⟨9007199254740992⟩]⟩ }) ∧
    rounded.GetNBins roundingExample.fDataPdf = 1 ∧
    rounded.BinProbability ⟨[[⟨1⟩]], [[⟨1⟩]], [⟨9007199254740992⟩]⟩ 0
      = .ok ⟨9007199254740992⟩ ∧
    rounded.GetBinContent roundingExample.fDataPdf 0 = .ok ⟨0⟩ ∧
    roundingExample.fNormalisations = [⟨9007199254740992⟩] ∧
    roundingExample.fSystematicConstraints = [] ∧
    roundingExample.fNormalisationConstraints.map
        (fun c => rounded.constraint c roundingExample.fNormalisations)
      = [.ok ⟨1⟩, .ok ⟨1⟩] ∧
    -(List.zipWith (fun d p => d * rounded.log p) [(⟨0⟩ : IntDouble)]
          [⟨9007199254740992⟩]).sum
        + [(⟨9007199254740992⟩ : IntDouble)].sum + ([] : List IntDouble).sum
        + [(⟨1⟩ : IntDouble), ⟨1⟩].sum
      = ⟨9007199254740994⟩ ∧
    (⟨9007199254740992⟩ : IntDouble) ≠ ⟨9007199254740994⟩ := by
  decide

/-- `simple` re-derives its working state. -/
theorem simple_rederives : Rederives simple := by
  refine ⟨?_, ?_⟩
  · intro sm p sm1 h
    simp only [simple, Prod.mk.injEq, true_and] at h ⊢
    exact h
  · intro pm sm sh w pm1 pm2 pm3 h2 h3 h4
    simp only [simple, Prod.mk.injEq, true_and] at h2 h3 h4 ⊢
    subst h2; subst h3; subst h4
    exact ⟨_, _, rfl, rfl, rfl⟩

/-- `Evaluate` on `unbinnedExample` bins the dataset and returns -5; the state it
leaves evaluates to -5 again. -/
theorem evaluate_twice_same_witness :
    Rederives simple ∧
    Evaluate simple unbinnedExample = (.ok (-5), (Evaluate simple unbinnedExample).2) ∧
    unbinnedExample ≠ (Evaluate simple unbinnedExample).2 ∧
    Evaluate simple (Evaluate simple unbinnedExample).2
      = (.ok (-5), (Evaluate simple unbinnedExample).2) :=
  ⟨simple_rederives, by decide, by decide,
    evaluate_twice_same simple simple_rederives unbinnedExample _ (-5) (by decide)⟩

end NLLHProofs4

end Oxsx

namespace Oxsx

section NLLHProofs5

variable {α PM SM SH DS EV PDF QC E : Type}

/-- `Evaluate` with data in place never raises the data-missing error. -/
theorem Evaluate_ne_dataException [Zero α] [Add α] [Sub α] [Mul α] [DecidableEq α]
    (K : Collaborators α PM SM SH DS EV PDF QC E)
    (s : BinnedNLLH α PM SM SH DS PDF QC)
    (h : s.fCalculatedDataPdf = true ∨ ∃ d, s.fDataSet = some d) :
    (Evaluate K s).1 ≠ .error .DataException := by
  have body : ∀ t : BinnedNLLH α PM SM SH DS PDF QC,
      (evaluateBody K t).1 ≠ .error .DataException := by
    intro t hb
    rcases hbt : evaluateBody K t with ⟨r, t1⟩
    rw [hbt] at hb
    simp only at hb
    subst hb
    rcases evaluateBody_error K t t1 _ hbt with h1 | ⟨e0, h1⟩ <;> cases h1
  cases hc : s.fCalculatedDataPdf with
  | true => rw [Evaluate_cached K s hc]; exact body s
  | false =>
    rcases h with h | ⟨d, hd⟩
    · rw [hc] at h; cases h
    · rcases hb : BinData K s with ⟨r, s0⟩
      cases r with
      | error e =>
        rw [Evaluate_uncached_error K s s0 hc d hd e hb]
        intro he
        simp only [Except.error.injEq] at he
        subst he
        rcases (BinData_error K s s0 _ hb).2 with h1 | ⟨e0, h1⟩ <;> cases h1
      | ok u =>
        rw [Evaluate_uncached_ok K s s0 hc d hd hb]
        exact body s0

/-- **C2.** `Evaluate()` raises the data-missing error if and only if the dataset
pointer is null and no binned data PDF is cached; it then leaves the object as it
was; and it does not raise that error after a successful `SetDataPdf` or after
`SetDataSet` with a non-null dataset. -/
theorem evaluate_dataException_iff [Zero α] [Add α] [Sub α] [Mul α] [DecidableEq α]
    (K : Collaborators α PM SM SH DS EV PDF QC E) :
    (∀ s : BinnedNLLH α PM SM SH DS PDF QC,
      (Evaluate K s).1 = .error .DataException
        ↔ (s.fDataSet = none ∧ s.fCalculatedDataPdf = false)) ∧
    (∀ s : BinnedNLLH α PM SM SH DS PDF QC,
      (Evaluate K s).1 = .error .DataException → (Evaluate K s).2 = s) ∧
    (∀ (s s1 : BinnedNLLH α PM SM SH DS PDF QC) (p : PDF),
      SetDataPdf K s p = (.ok (), s1) → (Evaluate K s1).1 ≠ .error .DataException) ∧
    (∀ (s : BinnedNLLH α PM SM SH DS PDF QC) (d : DS),
      (Evaluate K (SetDataSet s (some d))).1 ≠ .error .DataException) := by
  have key : ∀ s : BinnedNLLH α PM SM SH DS PDF QC,
      (Evaluate K s).1 = .error .DataException
        → (s.fDataSet = none ∧ s.fCalculatedDataPdf = false) := by
    intro s hs
    cases hc : s.fCalculatedDataPdf with
    | true => exact absurd hs (Evaluate_ne_dataException K s (Or.inl hc))
    | false =>
      rcases Option.eq_none_or_eq_some s.fDataSet with hd | ⟨d, hd⟩
      · exact ⟨hd, rfl⟩
      · exact absurd hs (Evaluate_ne_dataException K s (Or.inr ⟨d, hd⟩))
  refine ⟨fun s => ⟨key s, ?_⟩, ?_, ?_, ?_⟩
  · rintro ⟨hd, hc⟩
    rw [Evaluate_nodata K s hc hd]
  · intro s hs
    obtain ⟨hd, hc⟩ := key s hs
    rw [Evaluate_nodata K s hc hd]
  · intro s s1 p hp
    apply Evaluate_ne_dataException K s1
    left
    unfold SetDataPdf at hp
    split at hp
    · simp at hp
    · simp only [Prod.mk.injEq, true_and] at hp
      rw [← hp]
  · intro s d
    exact Evaluate_ne_dataException K _ (Or.inr ⟨d, rfl⟩)

/-- The per-bin loop over the bins `a, a+1, …, a+n-1` stops with the
zero-probability error exactly when some bin has probability zero and every bin
before it was read with a nonzero probability and a content. -/
theorem binLoop_zero_iff [Zero α] [Add α] [Sub α] [Mul α] [DecidableEq α]
    (K : Collaborators α PM SM SH DS EV PDF QC E) (pm : PM) (data : PDF) (n a : Nat) (acc : α) :
    binLoop K pm data (List.range' a n) acc = .error .ZeroProbability ↔
      ∃ i, a ≤ i ∧ i < a + n ∧ K.BinProbability pm i = .ok 0 ∧
        ∀ j, a ≤ j → j < i →
          ∃ p d, K.BinProbability pm j = .ok p ∧ p ≠ 0 ∧ K.GetBinContent data j = .ok d := by
  induction n generalizing a acc with
  | zero =>
    simp only [List.range'_zero, binLoop, add_zero]
    constructor
    · intro h; cases h
    · rintro ⟨i, h1, h2, -⟩; omega
  | succ n ih =>
    rw [List.range'_succ]
    simp only [binLoop]
    cases hp : K.BinProbability pm a with
    | error e =>
      simp only
      constructor
      · intro h; cases h
      · rintro ⟨i, h1, h2, h3, h4⟩
        rcases Nat.eq_or_lt_of_le h1 with rfl | hlt
        · rw [hp] at h3; cases h3
        · obtain ⟨p, d, hj, -⟩ := h4 a le_rfl hlt
          rw [hp] at hj; cases hj
    | ok prob =>
      simp only
      by_cases hz : prob = 0
      · subst hz
        simp only [if_true, true_iff]
        exact ⟨a, le_rfl, by omega, hp, fun j h1 h2 => by omega⟩
      · simp only [if_neg hz]
        cases hc : K.GetBinContent data a with
        | error e =>
          simp only
          constructor
          · intro h; cases h
          · rintro ⟨i, h1, h2, h3, h4⟩
            rcases Nat.eq_or_lt_of_le h1 with rfl | hlt
            · rw [hp] at h3; cases h3; exact absurd rfl hz
            · obtain ⟨p, d, -, -, hj⟩ := h4 a le_rfl hlt
              rw [hc] at hj; cases hj
        | ok content =>
          simp only
          rw [ih (a + 1)]
          constructor
          · rintro ⟨i, h1, h2, h3, h4⟩
            refine ⟨i, by omega, by omega, h3, fun j hj1 hj2 => ?_⟩
            rcases Nat.eq_or_lt_of_le hj1 with rfl | hlt
            · exact ⟨prob, content, hp, hz, hc⟩
            · exact h4 j hlt hj2
          · rintro ⟨i, h1, h2, h3, h4⟩
            rcases Nat.eq_or_lt_of_le h1 with rfl | hlt
            · rw [hp] at h3; cases h3; exact absurd rfl hz
            · exact ⟨i, hlt, by omega, h3, fun j hj1 hj2 => h4 j (by omega) hj2⟩

end NLLHProofs5

end Oxsx

namespace Oxsx

section NLLHProofs6

variable {α PM SM SH DS EV PDF QC E : Type}

/-- `evaluateBody` stops with the zero-probability error exactly when the four
preparation steps succeed and the per-bin loop stops with it. -/
theorem evaluateBody_zero_iff [Zero α] [Add α] [Sub α] [Mul α] [DecidableEq α]
    (K : Collaborators α PM SM SH DS EV PDF QC E) (s : BinnedNLLH α PM SM SH DS PDF QC) :
    (evaluateBody K s).1 = .error .ZeroProbability ↔
      ∃ (sm : SM) (pm1 pm2 pm3 : PM),
        K.SetParameters s.fSystematicManager s.fSystematicParams = (.ok (), sm) ∧
        K.ApplySystematics s.fPdfManager sm = (.ok (), pm1) ∧
        K.ApplyShrink pm1 s.fPdfShrinker = (.ok (), pm2) ∧
        K.SetNormalisations pm2 s.fNormalisations = (.ok (), pm3) ∧
        binLoop K pm3 s.fDataPdf (List.range (K.GetNBins s.fDataPdf)) 0
          = .error .ZeroProbability := by
  constructor
  · intro hz
    rcases hb : evaluateBody K s with ⟨r, s1⟩
    rw [hb] at hz
    simp only at hz
    subst hz
    unfold evaluateBody at hb
    split at hb
    · simp at hb
    · rename_i u1 sm h1
      split at hb
      · simp at hb
      · rename_i u2 pm1 h2
        split at hb
        · simp at hb
        · rename_i u3 pm2 h3
          split at hb
          · simp at hb
          · rename_i u4 pm3 h4
            simp only at hb
            split at hb
            · rename_i e1 h5
              simp only [Prod.mk.injEq, Except.error.injEq] at hb
              rw [hb.1] at h5
              exact ⟨sm, pm1, pm2, pm3, h1, h2, h3, h4, h5⟩
            · split at hb
              · rename_i e1 h6
                obtain ⟨e0, rfl⟩ := constraintLoop_error K _ _ _ _ h6
                simp at hb
              · split at hb
                · rename_i e1 h7
                  obtain ⟨e0, rfl⟩ := constraintLoop_error K _ _ _ _ h7
                  simp at hb
                · simp at hb
  · rintro ⟨sm, pm1, pm2, pm3, h1, h2, h3, h4, h5⟩
    unfold evaluateBody
    simp only [h1, h2, h3, h4, h5]

/-- **C3, as the code has it.** `Evaluate()` aborts with the zero-probability error
exactly when the data is in place (cached, or binned by this call from the bound
dataset), the four preparation steps succeed, and some data bin `i` has
`BinProbability(i) = 0` while every earlier bin was read with a nonzero probability
and a content.  The data content of bin `i` plays no part. -/
theorem evaluate_zeroProbability_iff [Zero α] [Add α] [Sub α] [Mul α] [DecidableEq α]
    (K : Collaborators α PM SM SH DS EV PDF QC E) (s : BinnedNLLH α PM SM SH DS PDF QC) :
    (Evaluate K s).1 = .error .ZeroProbability ↔
      ∃ (s0 : BinnedNLLH α PM SM SH DS PDF QC) (sm : SM) (pm1 pm2 pm3 : PM) (i : Nat),
        ((s.fCalculatedDataPdf = true ∧ s0 = s) ∨
          (s.fCalculatedDataPdf = false ∧ (∃ d, s.fDataSet = some d) ∧
            BinData K s = (.ok (), s0))) ∧
        K.SetParameters s0.fSystematicManager s0.fSystematicParams = (.ok (), sm) ∧
        K.ApplySystematics s0.fPdfManager sm = (.ok (), pm1) ∧
        K.ApplyShrink pm1 s0.fPdfShrinker = (.ok (), pm2) ∧
        K.SetNormalisations pm2 s0.fNormalisations = (.ok (), pm3) ∧
        i < K.GetNBins s0.fDataPdf ∧ K.BinProbability pm3 i = .ok 0 ∧
        ∀ j, j < i →
          ∃ p d, K.BinProbability pm3 j = .ok p ∧ p ≠ 0 ∧
            K.GetBinContent s0.fDataPdf j = .ok d := by
  have body : ∀ t : BinnedNLLH α PM SM SH DS PDF QC,
      (evaluateBody K t).1 = .error .ZeroProbability ↔
        ∃ (sm : SM) (pm1 pm2 pm3 : PM) (i : Nat),
          K.SetParameters t.fSystematicManager t.fSystematicParams = (.ok (), sm) ∧
          K.ApplySystematics t.fPdfManager sm = (.ok (), pm1) ∧
          K.ApplyShrink pm1 t.fPdfShrinker = (.ok (), pm2) ∧
          K.SetNormalisations pm2 t.fNormalisations = (.ok (), pm3) ∧
          i < K.GetNBins t.fDataPdf ∧ K.BinProbability pm3 i = .ok 0 ∧
          ∀ j, j < i →
            ∃ p d, K.BinProbability pm3 j = .ok p ∧ p ≠ 0 ∧
              K.GetBinContent t.fDataPdf j = .ok d := by
    intro t
    rw [evaluateBody_zero_iff]
    constructor
    · rintro ⟨sm, pm1, pm2, pm3, h1, h2, h3, h4, h5⟩
      rw [List.range_eq_range', binLoop_zero_iff] at h5
      obtain ⟨i, -, hi, hp, hj⟩ := h5
      exact ⟨sm, pm1, pm2, pm3, i, h1, h2, h3, h4, by omega, hp,
        fun j hlt => hj j (Nat.zero_le j) hlt⟩
    · rintro ⟨sm, pm1, pm2, pm3, i, h1, h2, h3, h4, hi, hp, hj⟩
      refine ⟨sm, pm1, pm2, pm3, h1, h2, h3, h4, ?_⟩
      rw [List.range_eq_range', binLoop_zero_iff]
      exact ⟨i, Nat.zero_le i, by omega, hp, fun j _ hlt => hj j hlt⟩
  cases hc : s.fCalculatedDataPdf with
  | true =>
    rw [Evaluate_cached K s hc, body s]
    constructor
    · rintro ⟨sm, pm1, pm2, pm3, i, h⟩
      exact ⟨s, sm, pm1, pm2, pm3, i, Or.inl ⟨rfl, rfl⟩, h⟩
    · rintro ⟨s0, sm, pm1, pm2, pm3, i, hs0, h⟩
      rcases hs0 with ⟨-, rfl⟩ | ⟨hf, -⟩
      · exact ⟨sm, pm1, pm2, pm3, i, h⟩
      · cases hf
  | false =>
    rcases Option.eq_none_or_eq_some s.fDataSet with hd | ⟨d, hd⟩
    · rw [Evaluate_nodata K s hc hd]
      constructor
      · intro h; cases h
      · rintro ⟨s0, sm, pm1, pm2, pm3, i, hs0, -⟩
        rcases hs0 with ⟨hf, -⟩ | ⟨-, ⟨d, hd1⟩, -⟩
        · cases hf
        · rw [hd] at hd1; cases hd1
    · rcases hb : BinData K s with ⟨r, s1⟩
      cases r with
      | error e =>
        rw [Evaluate_uncached_error K s s1 hc d hd e hb]
        constructor
        · intro h
          simp only [Except.error.injEq] at h
          subst h
          rcases (BinData_error K s s1 _ hb).2 with h1 | ⟨e0, h1⟩ <;> cases h1
        · rintro ⟨s0, sm, pm1, pm2, pm3, i, hs0, -⟩
          rcases hs0 with ⟨hf, -⟩ | ⟨-, -, hb1⟩
          · cases hf
          · cases hb1
      | ok u =>
        rw [Evaluate_uncached_ok K s s1 hc d hd hb, body s1]
        constructor
        · rintro ⟨sm, pm1, pm2, pm3, i, h⟩
          exact ⟨s1, sm, pm1, pm2, pm3, i, Or.inr ⟨rfl, ⟨d, hd⟩, rfl⟩, h⟩
        · rintro ⟨s0, sm, pm1, pm2, pm3, i, hs0, h⟩
          rcases hs0 with ⟨hf, -⟩ | ⟨-, -, hb1⟩
          · cases hf
          · cases hb1
            exact ⟨sm, pm1, pm2, pm3, i, h⟩

/-- **C3 fails as stated.** In `emptyBinExample` the data is bound, bin 0 has
probability 2 and bin 1 has probability 0 and data content 0, so no bin has zero
probability with nonzero content; yet `Evaluate()` aborts with the zero-probability
error. -/
theorem evaluate_aborts_on_empty_zero_bin :
    emptyBinExample.fCalculatedDataPdf = true ∧
    simple.GetNBins emptyBinExample.fDataPdf = 2 ∧
    simple.BinProbability (Evaluate simple emptyBinExample).2.fPdfManager 0 = .ok 2 ∧
    simple.BinProbability (Evaluate simple emptyBinExample).2.fPdfManager 1 = .ok 0 ∧
    simple.GetBinContent emptyBinExample.fDataPdf 1 = .ok 0 ∧
    (¬ ∃ i, i < simple.GetNBins emptyBinExample.fDataPdf ∧
      simple.BinProbability (Evaluate simple emptyBinExample).2.fPdfManager i = .ok 0 ∧
      simple.GetBinContent emptyBinExample.fDataPdf i ≠ .ok 0) ∧
    (Evaluate simple emptyBinExample).1 = .error .ZeroProbability := by
  decide

/-- **C7.** For each of the four constraint accessors: the call fails with a
dimension error if and only if the index is not below the number of slots, and then
leaves the object as it was; with the index in range, `Set` replaces the slot at
that index, keeps the length and every other slot, touches nothing else, and a
following `Get` at that index returns the constraint that was set. -/
theorem constraint_accessors (s : BinnedNLLH α PM SM SH DS PDF QC) (i : Nat) (c : QC) :
    -- SetSystematicConstraint
    (((SetSystematicConstraint s i c).1 = (.error .DimensionError : Except (NLLHError E) Unit)
        ↔ i ≥ s.fSystematicConstraints.length) ∧
      (i ≥ s.fSystematicConstraints.length →
        (SetSystematicConstraint s i c : Except (NLLHError E) Unit × _)
          = (.error .DimensionError, s)) ∧
      (i < s.fSystematicConstraints.length →
        (SetSystematicConstraint s i c : Except (NLLHError E) Unit × _)
          = (.ok (), { s with fSystematicConstraints := s.fSystematicConstraints.set i c }) ∧
        (s.fSystematicConstraints.set i c).length = s.fSystematicConstraints.length ∧
        (∀ j, j ≠ i → (s.fSystematicConstraints.set i c)[j]? = s.fSystematicConstraints[j]?) ∧
        (GetSystematicConstraint
          (SetSystematicConstraint s i c : Except (NLLHError E) Unit × _).2 i
            : Except (NLLHError E) QC) = .ok c)) ∧
    -- GetSystematicConstraint
    (((GetSystematicConstraint s i : Except (NLLHError E) QC) = .error .DimensionError
        ↔ i ≥ s.fSystematicConstraints.length) ∧
      (i < s.fSystematicConstraints.length →
        ∃ q, s.fSystematicConstraints[i]? = some q ∧
          (GetSystematicConstraint s i : Except (NLLHError E) QC) = .ok q)) ∧
    -- SetNormalisationConstraint
    (((SetNormalisationConstraint s i c).1 = (.error .DimensionError : Except (NLLHError E) Unit)
        ↔ i ≥ s.fNormalisationConstraints.length) ∧
      (i ≥ s.fNormalisationConstraints.length →
        (SetNormalisationConstraint s i c : Except (NLLHError E) Unit × _)
          = (.error .DimensionError, s)) ∧
      (i < s.fNormalisationConstraints.length →
        (SetNormalisationConstraint s i c : Except (NLLHError E) Unit × _)
          = (.ok (),
              { s with fNormalisationConstraints := s.fNormalisationConstraints.set i c }) ∧
        (s.fNormalisationConstraints.set i c).length = s.fNormalisationConstraints.length ∧
        (∀ j, j ≠ i →
          (s.fNormalisationConstraints.set i c)[j]? = s.fNormalisationConstraints[j]?) ∧
        (GetNormalisationConstraint
          (SetNormalisationConstraint s i c : Except (NLLHError E) Unit × _).2 i
            : Except (NLLHError E) QC) = .ok c)) ∧
    -- GetNormalisationConstraint
    (((GetNormalisationConstraint s i : Except (NLLHError E) QC) = .error .DimensionError
        ↔ i ≥ s.fNormalisationConstraints.length) ∧
      (i < s.fNormalisationConstraints.length →
        ∃ q, s.fNormalisationConstraints[i]? = some q ∧
          (GetNormalisationConstraint s i : Except (NLLHError E) QC) = .ok q)) := by
  refine ⟨⟨?_, ?_, ?_⟩, ⟨?_, ?_⟩, ⟨?_, ?_, ?_⟩, ⟨?_, ?_⟩⟩
  · unfold SetSystematicConstraint
    split <;> simp_all
  · intro h
    simp [SetSystematicConstraint, h]
  · intro h
    have h1 : ¬ i ≥ s.fSystematicConstraints.length := by omega
    refine ⟨by simp [SetSystematicConstraint, h1], by simp, ?_, ?_⟩
    · intro j hj
      exact List.getElem?_set_ne (Ne.symm hj)
    · simp [SetSystematicConstraint, GetSystematicConstraint, h1, h]
  · unfold GetSystematicConstraint
    split
    · simp_all
    · rename_i h1
      have h2 : i < s.fSystematicConstraints.length := by omega
      simp [List.getElem?_eq_getElem h2]
      omega
  · intro h
    have h1 : ¬ i ≥ s.fSystematicConstraints.length := by omega
    exact ⟨s.fSystematicConstraints[i], List.getElem?_eq_getElem h,
      by simp [GetSystematicConstraint, h1, List.getElem?_eq_getElem h]⟩
  · unfold SetNormalisationConstraint
    split <;> simp_all
  · intro h
    simp [SetNormalisationConstraint, h]
  · intro h
    have h1 : ¬ i ≥ s.fNormalisationConstraints.length := by omega
    refine ⟨by simp [SetNormalisationConstraint, h1], by simp, ?_, ?_⟩
    · intro j hj
      exact List.getElem?_set_ne (Ne.symm hj)
    · simp [SetNormalisationConstraint, GetNormalisationConstraint, h1, h]
  · unfold GetNormalisationConstraint
    split
    · simp_all
    · rename_i h1
      have h2 : i < s.fNormalisationConstraints.length := by omega
      simp [List.getElem?_eq_getElem h2]
      omega
  · intro h
    have h1 : ¬ i ≥ s.fNormalisationConstraints.length := by omega
    exact ⟨s.fNormalisationConstraints[i], List.getElem?_eq_getElem h,
      by simp [GetNormalisationConstraint, h1, List.getElem?_eq_getElem h]⟩

end NLLHProofs6

end Oxsx

namespace Oxsx

/-! ## Properties of Convolution -/

namespace Convolution

variable {α K : Type}

/-- `CacheCompatibleBins` writes only the compatibility lists, the reduced axes, the
reduced-bin ids and the flag. -/
theorem CacheCompatibleBins_frame (c : Convolution α K) :
    c.CacheCompatibleBins.2.fPdf = c.fPdf ∧
    c.CacheCompatibleBins.2.fHasAxes = c.fHasAxes ∧
    c.CacheCompatibleBins.2.fPdfMapping = c.fPdfMapping ∧
    c.CacheCompatibleBins.2.fDataRep = c.fDataRep ∧
    c.CacheCompatibleBins.2.fPdfDataRep = c.fPdfDataRep ∧
    c.CacheCompatibleBins.2.fParameterCount = c.fParameterCount := by
  unfold CacheCompatibleBins
  simp only
  split
  · simp
  · split
    · simp
    · split
      · simp
      · split <;> simp

/-- `constructBody` writes only the entries of the mapping. -/
theorem constructBody_frame [Zero α] [Sub α] (ops : KernelOps α K) (pdf : K) (c : Convolution α K) :
    (constructBody ops pdf c).2.fPdf = c.fPdf ∧
    (constructBody ops pdf c).2.fHasAxes = c.fHasAxes ∧
    (constructBody ops pdf c).2.fPdfMapping.fAxes = c.fPdfMapping.fAxes ∧
    (constructBody ops pdf c).2.fCachedCompatibleBins = c.fCachedCompatibleBins ∧
    (constructBody ops pdf c).2.fCompatibleBins = c.fCompatibleBins ∧
    (constructBody ops pdf c).2.fSysAxes = c.fSysAxes ∧
    (constructBody ops pdf c).2.fSysBins = c.fSysBins ∧
    (constructBody ops pdf c).2.fDataRep = c.fDataRep ∧
    (constructBody ops pdf c).2.fPdfDataRep = c.fPdfDataRep := by
  unfold constructBody
  simp only
  split
  · simp
  · split
    · simp
    · split
      · simp
      · split
        · simp
        · split
          · simp
          · rename_i mapping hm
            unfold PdfMapping.SetComponents at hm
            split at hm
            · cases hm
            · simp only [Except.ok.injEq] at hm
              subst hm
              simp

/-- `Construct` keeps the kernel PDF and the axes flag, whether it throws or not. -/
theorem Construct_frame [Zero α] [Sub α] (ops : KernelOps α K) (c : Convolution α K) :
    (Construct ops c).2.fPdf = c.fPdf ∧ (Construct ops c).2.fHasAxes = c.fHasAxes := by
  have hc := CacheCompatibleBins_frame c
  unfold Construct
  split
  · simp
  · simp
  · rename_i pdf _ _
    split
    · rcases h1 : c.CacheCompatibleBins with ⟨r, c1⟩
      rw [h1] at hc
      cases r with
      | error e => exact ⟨hc.1, hc.2.1⟩
      | ok u =>
        simp only
        have hb := constructBody_frame ops pdf c1
        split
        · rename_i e c2 h2
          rw [h2] at hb
          exact ⟨hb.1.trans hc.1, hb.2.1.trans hc.2.1⟩
        · rename_i u2 c2 h2
          rw [h2] at hb
          exact ⟨hb.1.trans hc.1, hb.2.1.trans hc.2.1⟩
    · have hb := constructBody_frame ops pdf c
      split
      · rename_i e c2 h2
        rw [h2] at hb
        exact ⟨hb.1, hb.2.1⟩
      · rename_i u2 c2 h2
        rw [h2] at hb
        exact ⟨hb.1, hb.2.1⟩

/-- **C6.** `Construct()` throws the initialisation error if and only if the kernel
PDF pointer is null or `fHasAxes` is false, and then leaves the whole object as it
was.  A new `Convolution` has neither; `SetPdf` sets the kernel and `SetAxes` the
flag, neither undoes the other, and `Construct` undoes neither: so the error is
raised exactly while `SetPdf` or `SetAxes` has not been called. -/
theorem construct_initialisationError_iff [Zero α] [Sub α] (ops : KernelOps α K) :
    (∀ c : Convolution α K,
      (Construct ops c).1 = .error .InitialisationError
        ↔ (c.fPdf = none ∨ c.fHasAxes = false)) ∧
    (∀ c : Convolution α K,
      (Construct ops c).1 = .error .InitialisationError → (Construct ops c).2 = c) ∧
    (∀ dataRep pdfDataRep : List Nat,
      (new dataRep pdfDataRep : Convolution α K).fPdf = none ∧
      (new dataRep pdfDataRep : Convolution α K).fHasAxes = false) ∧
    (∀ (c : Convolution α K) (pdf_ : K),
      (SetPdf ops c pdf_).fPdf = some pdf_ ∧ (SetPdf ops c pdf_).fHasAxes = c.fHasAxes) ∧
    (∀ (c : Convolution α K) (axes_ : AxisCollection α),
      (SetAxes c axes_).fHasAxes = true ∧ (SetAxes c axes_).fPdf = c.fPdf) ∧
    (∀ c : Convolution α K,
      (Construct ops c).2.fPdf = c.fPdf ∧ (Construct ops c).2.fHasAxes = c.fHasAxes) := by
  have key : ∀ c : Convolution α K,
      (Construct ops c).1 = .error .InitialisationError
        → (c.fPdf = none ∨ c.fHasAxes = false) := by
    intro c h
    unfold Construct at h
    split at h
    · rename_i h1; exact Or.inl h1
    · rename_i h1 h2; exact Or.inr h2
    · split at h
      · split at h
        · simp at h
        · split at h <;> simp at h
      · split at h <;> simp at h
  have back : ∀ c : Convolution α K, (c.fPdf = none ∨ c.fHasAxes = false) →
      Construct ops c = (.error .InitialisationError, c) := by
    intro c h
    unfold Construct
    split
    · rfl
    · rfl
    · rename_i h1 h2
      rcases h with h | h
      · rw [h1] at h; cases h
      · rw [h2] at h; cases h
  refine ⟨fun c => ⟨key c, fun h => by rw [back c h]⟩, fun c h => by rw [back c (key c h)],
    fun _ _ => ⟨rfl, rfl⟩, fun _ _ => ⟨rfl, rfl⟩, fun _ _ => ⟨rfl, rfl⟩, Construct_frame ops⟩

end Convolution

end Oxsx

namespace Oxsx

/-- `vectorAt` succeeds exactly on an index that holds an element. -/
theorem vectorAt_ok {β : Type} (v : List β) (i : Nat) (x : β) :
    vectorAt v i = .ok x ↔ v[i]? = some x := by
  unfold vectorAt
  split
  · rename_i y hy
    rw [hy]
    simp
  · rename_i hy
    rw [hy]
    simp

namespace Convolution

variable {α K : Type}

/-- `BinsCompatible` is symmetric in the two bins. -/
theorem BinsCompatible_comm (c : Convolution α K) (i j : Nat) :
    c.BinsCompatible i j = c.BinsCompatible j i := by
  unfold BinsCompatible
  split
  · rfl
  · simp only [sameOutside, Except.ok.injEq]
    congr 1
    funext d
    rw [Bool.beq_comm]

/-- The two `push_back`s append `j` to the list of `i` and `i` to the list of `j`. -/
theorem pushPair_ok (bins bins1 : List (List Nat)) (i j : Nat) (hij : i ≠ j)
    (h : pushPair bins i j = .ok bins1) :
    bins1.length = bins.length ∧
    ∀ a, bins1.getD a [] = bins.getD a [] ++
      (if a = i then [j] else if a = j then [i] else []) := by
  unfold pushPair at h
  split at h
  · cases h
  · rename_i li hli
    simp only at h
    split at h
    · cases h
    · rename_i lj hlj
      simp only [Except.ok.injEq] at h
      subst h
      rw [vectorAt_ok] at hli hlj
      have hi : i < bins.length := by
        rcases List.getElem?_eq_some.1 hli with ⟨h1, -⟩; exact h1
      rw [List.getElem?_set_ne hij] at hlj
      have hj : j < bins.length := by
        rcases List.getElem?_eq_some.1 hlj with ⟨h1, -⟩; exact h1
      refine ⟨by simp, fun a => ?_⟩
      simp only [List.getD_eq_getElem?_getD, List.getElem?_set, List.length_set]
      by_cases haj : j = a
      · subst haj
        simp [hj, hlj, Ne.symm hij]
      · by_cases hai : i = a
        · subst hai
          simp [hi, hli, haj]
        · simp [haj, hai, Ne.symm haj, Ne.symm hai]

/-- What a successful inner loop of `CacheCompatibleBins` appended to each list. -/
theorem cacheInner_ok (c : Convolution α K) (i : Nat) (js : List Nat)
    (bins bins1 : List (List Nat)) (hjs : ∀ j ∈ js, i ≠ j) (hnd : js.Nodup)
    (h : cacheInner c i js bins = (.ok (), bins1)) :
    bins1.length = bins.length ∧
    ∀ a, ∃ added : List Nat, bins1.getD a [] = bins.getD a [] ++ added ∧ added.Nodup ∧
      ∀ b, b ∈ added ↔
        (a = i ∧ b ∈ js ∧ c.BinsCompatible i b = .ok true) ∨
        (b = i ∧ a ∈ js ∧ c.BinsCompatible i a = .ok true) := by
  induction js generalizing bins with
  | nil =>
    simp only [cacheInner, Prod.mk.injEq, true_and] at h
    subst h
    exact ⟨rfl, fun a => ⟨[], by simp⟩⟩
  | cons j rest ih =>
    have hij : i ≠ j := hjs j (List.mem_cons_self _ _)
    have hrest : ∀ x ∈ rest, i ≠ x := fun x hx => hjs x (List.mem_cons_of_mem _ hx)
    have hjr : j ∉ rest := (List.nodup_cons.1 hnd).1
    have hndr : rest.Nodup := (List.nodup_cons.1 hnd).2
    simp only [cacheInner] at h
    split at h
    · simp at h
    · rename_i hb
      obtain ⟨hlen, hall⟩ := ih bins hrest hndr h
      refine ⟨hlen, fun a => ?_⟩
      obtain ⟨added, h1, h2, h3⟩ := hall a
      refine ⟨added, h1, h2, fun b => ?_⟩
      rw [h3, List.mem_cons, List.mem_cons]
      constructor
      · rintro (⟨h4, h5, h6⟩ | ⟨h4, h5, h6⟩)
        · exact Or.inl ⟨h4, Or.inr h5, h6⟩
        · exact Or.inr ⟨h4, Or.inr h5, h6⟩
      · rintro (⟨h4, h5 | h5, h6⟩ | ⟨h4, h5 | h5, h6⟩)
        · subst h5; rw [hb] at h6; cases h6
        · exact Or.inl ⟨h4, h5, h6⟩
        · subst h5; rw [hb] at h6; cases h6
        · exact Or.inr ⟨h4, h5, h6⟩
    · rename_i hb
      split at h
      · simp at h
      · rename_i bins0 hp
        obtain ⟨hlen0, hget0⟩ := pushPair_ok bins bins0 i j hij hp
        obtain ⟨hlen, hall⟩ := ih bins0 hrest hndr h
        refine ⟨hlen.trans hlen0, fun a => ?_⟩
        obtain ⟨added, h1, h2, h3⟩ := hall a
        refine ⟨(if a = i then [j] else if a = j then [i] else []) ++ added, ?_, ?_, ?_⟩
        · rw [h1, hget0 a, List.append_assoc]
        · rw [List.nodup_append]
          refine ⟨by split_ifs <;> simp, h2, ?_⟩
          intro b hb1 hb2
          rw [h3] at hb2
          by_cases hai : a = i
          · rw [if_pos hai] at hb1
            simp only [List.mem_singleton] at hb1
            subst hb1
            rcases hb2 with ⟨-, h5, -⟩ | ⟨h4, -, -⟩
            · exact hjr h5
            · exact hij h4.symm
          · rw [if_neg hai] at hb1
            by_cases haj : a = j
            · rw [if_pos haj] at hb1
              simp only [List.mem_singleton] at hb1
              rcases hb2 with ⟨h4, -, -⟩ | ⟨-, h5, -⟩
              · exact hai h4
              · rw [haj] at h5; exact hjr h5
            · rw [if_neg haj] at hb1
              cases hb1
        · intro b
          rw [List.mem_append, h3, List.mem_cons, List.mem_cons]
          constructor
          · rintro (hb1 | ⟨h4, h5, h6⟩ | ⟨h4, h5, h6⟩)
            · by_cases hai : a = i
              · rw [if_pos hai] at hb1
                simp only [List.mem_singleton] at hb1
                subst hb1
                exact Or.inl ⟨hai, Or.inl rfl, hb⟩
              · rw [if_neg hai] at hb1
                by_cases haj : a = j
                · rw [if_pos haj] at hb1
                  simp only [List.mem_singleton] at hb1
                  subst hb1; subst haj
                  exact Or.inr ⟨rfl, Or.inl rfl, hb⟩
                · rw [if_neg haj] at hb1
                  cases hb1
            · exact Or.inl ⟨h4, Or.inr h5, h6⟩
            · exact Or.inr ⟨h4, Or.inr h5, h6⟩
          · rintro (⟨h4, h5 | h5, h6⟩ | ⟨h4, h5 | h5, h6⟩)
            · left; rw [if_pos h4, h5]; simp
            · exact Or.inr (Or.inl ⟨h4, h5, h6⟩)
            · left
              have hai : a ≠ i := by rw [h5]; exact Ne.symm hij
              rw [if_neg hai, if_pos h5, h4]; simp
            · exact Or.inr (Or.inr ⟨h4, h5, h6⟩)

end Convolution

end Oxsx

namespace Oxsx

namespace Convolution

variable {α K : Type}

/-- What a successful outer loop of `CacheCompatibleBins` over the bins
`k, …, k+m-1` appended to each list. -/
theorem cacheOuter_ok (c : Convolution α K) (n m k : Nat)
    (bins bins1 : List (List Nat))
    (h : cacheOuter c n (List.range' k m) bins = (.ok (), bins1)) :
    bins1.length = bins.length ∧
    ∀ a, ∃ added : List Nat, bins1.getD a [] = bins.getD a [] ++ added ∧ added.Nodup ∧
      ∀ b, b ∈ added ↔
        (k ≤ a ∧ a < k + m ∧ a < b ∧ b < n ∧ c.BinsCompatible a b = .ok true) ∨
        (k ≤ b ∧ b < k + m ∧ b < a ∧ a < n ∧ c.BinsCompatible b a = .ok true) := by
  induction m generalizing k bins with
  | zero =>
    simp only [List.range'_zero, cacheOuter, Prod.mk.injEq, true_and] at h
    subst h
    refine ⟨rfl, fun a => ⟨[], by simp, List.nodup_nil, fun b => ?_⟩⟩
    simp only [List.not_mem_nil, false_iff]
    omega
  | succ m ih =>
    rw [List.range'_succ] at h
    simp only [cacheOuter] at h
    split at h
    · simp at h
    · rename_i u bins0 hin
      have hmem : ∀ j, j ∈ List.range' (k + 1) (n - (k + 1)) ↔ k < j ∧ j < n := by
        intro j; rw [List.mem_range'_1]; omega
      obtain ⟨hlen0, hall0⟩ := cacheInner_ok c k _ bins bins0
        (fun j hj => by have := (hmem j).1 hj; omega) (List.nodup_range' _ _) hin
      obtain ⟨hlen, hall⟩ := ih (k + 1) bins0 h
      refine ⟨hlen.trans hlen0, fun a => ?_⟩
      obtain ⟨add0, g1, g2, g3⟩ := hall0 a
      obtain ⟨add1, h1, h2, h3⟩ := hall a
      refine ⟨add0 ++ add1, by rw [h1, g1, List.append_assoc], ?_, fun b => ?_⟩
      · rw [List.nodup_append]
        refine ⟨g2, h2, fun b hb0 hb1 => ?_⟩
        rw [g3, hmem, hmem] at hb0
        rw [h3] at hb1
        omega
      · rw [List.mem_append, g3, h3, hmem, hmem]
        constructor
        · rintro ((⟨h4, h5, h6⟩ | ⟨h4, h5, h6⟩) | (⟨h4, h5, h6, h7, h8⟩ | ⟨h4, h5, h6, h7, h8⟩))
          · subst h4; exact Or.inl ⟨le_rfl, by omega, h5.1, h5.2, h6⟩
          · subst h4; exact Or.inr ⟨le_rfl, by omega, h5.1, h5.2, h6⟩
          · exact Or.inl ⟨by omega, by omega, h6, h7, h8⟩
          · exact Or.inr ⟨by omega, by omega, h6, h7, h8⟩
        · rintro (⟨h4, h5, h6, h7, h8⟩ | ⟨h4, h5, h6, h7, h8⟩)
          · rcases Nat.eq_or_lt_of_le h4 with h9 | h9
            · subst h9; exact Or.inl (Or.inl ⟨rfl, ⟨h6, h7⟩, h8⟩)
            · exact Or.inr (Or.inl ⟨by omega, by omega, h6, h7, h8⟩)
          · rcases Nat.eq_or_lt_of_le h4 with h9 | h9
            · subst h9; exact Or.inl (Or.inr ⟨rfl, ⟨h6, h7⟩, h8⟩)
            · exact Or.inr (Or.inr ⟨by omega, by omega, h6, h7, h8⟩)

/-- What a successful `CacheCompatibleBins` did, step by step. -/
theorem CacheCompatibleBins_ok (c c1 : Convolution α K)
    (h : c.CacheCompatibleBins = (.ok (), c1)) :
    ∃ (bins : List (List Nat)) (rel : List Nat) (sys : AxisCollection α) (sysBins : List Nat),
      cacheOuter c c.fPdfMapping.GetNBins (List.range c.fPdfMapping.GetNBins)
        (vectorResize c.fCompatibleBins c.fPdfMapping.GetNBins []) = (.ok (), bins) ∧
      GetRelativeIndices c.fDataRep c.fPdfDataRep = .ok rel ∧
      buildSysAxes c.fPdfMapping.GetAxes rel AxisCollection.new = (.ok (), sys) ∧
      fillSysBins c.fPdfMapping.GetAxes sys rel (List.range c.fPdfMapping.GetAxes.GetNBins)
        (vectorResize c.fSysBins c.fPdfMapping.GetNBins 0) = (.ok (), sysBins) ∧
      c1 = { c with fCompatibleBins := bins, fSysAxes := sys, fSysBins := sysBins,
                    fCachedCompatibleBins := true } := by
  unfold CacheCompatibleBins at h
  simp only at h
  split at h
  · simp at h
  · rename_i u1 bins h1
    split at h
    · simp at h
    · rename_i rel h2
      split at h
      · simp at h
      · rename_i u3 sys h3
        split at h
        · simp at h
        · rename_i u4 sysBins h4
          simp only [Prod.mk.injEq, true_and] at h
          exact ⟨bins, rel, sys, sysBins, h1, h2, h3, h4, h.symm⟩

/-- The compatibility lists that a successful `CacheCompatibleBins` leaves on an
object whose lists were empty: one list per bin, without repetition, holding
exactly the other bins that are compatible with it. -/
theorem CacheCompatibleBins_lists (c c1 : Convolution α K) (hfresh : c.fCompatibleBins = [])
    (h : c.CacheCompatibleBins = (.ok (), c1)) :
    c1.fCompatibleBins.length = c.fPdfMapping.GetNBins ∧
    ∀ a, (c1.fCompatibleBins.getD a []).Nodup ∧
      ∀ b, b ∈ c1.fCompatibleBins.getD a [] ↔
        (a ≠ b ∧ a < c.fPdfMapping.GetNBins ∧ b < c.fPdfMapping.GetNBins ∧
          c.BinsCompatible a b = .ok true) := by
  obtain ⟨bins, rel, sys, sysBins, h1, -, -, -, hc1⟩ := CacheCompatibleBins_ok c c1 h
  subst hc1
  rw [List.range_eq_range'] at h1
  obtain ⟨hlen, hall⟩ := cacheOuter_ok _ _ _ _ _ _ h1
  simp only [hfresh, vectorResize, List.take_nil, List.nil_append, List.length_nil,
    Nat.sub_zero, List.length_replicate] at hlen hall
  refine ⟨hlen, fun a => ?_⟩
  obtain ⟨added, g1, g2, g3⟩ := hall a
  have hempty : (List.replicate c.fPdfMapping.GetNBins ([] : List Nat)).getD a [] = [] := by
    rw [List.getD_eq_getElem?_getD, List.getElem?_replicate]
    split <;> rfl
  rw [hempty, List.nil_append] at g1
  simp only [g1]
  refine ⟨g2, fun b => ?_⟩
  rw [g3]
  rw [BinsCompatible_comm c b a]
  constructor
  · rintro (⟨-, h5, h6, h7, h8⟩ | ⟨-, h5, h6, h7, h8⟩)
    · exact ⟨by omega, by omega, h7, h8⟩
    · exact ⟨by omega, h7, by omega, h8⟩
  · rintro ⟨h5, h6, h7, h8⟩
    rcases Nat.lt_or_gt_of_ne h5 with h9 | h9
    · exact Or.inl ⟨Nat.zero_le _, by omega, h9, h7, h8⟩
    · exact Or.inr ⟨Nat.zero_le _, by omega, h9, h6, h8⟩

/-- Whatever the lists held before, a successful `CacheCompatibleBins()` over a
mapping with `N` bins leaves every two distinct bins `i, j < N` with
`BinsCompatible(i, j)` each in the other's list. -/
theorem CacheCompatibleBins_forward (c c1 : Convolution α K)
    (h : c.CacheCompatibleBins = (.ok (), c1)) (i j : Nat)
    (hi : i < c.fPdfMapping.GetNBins) (hj : j < c.fPdfMapping.GetNBins) (hij : i ≠ j)
    (hc : c.BinsCompatible i j = .ok true) :
    j ∈ c1.fCompatibleBins.getD i [] ∧ i ∈ c1.fCompatibleBins.getD j [] := by
  obtain ⟨bins, rel, sys, sysBins, h1, -, -, -, hc1⟩ := CacheCompatibleBins_ok c c1 h
  subst hc1
  rw [List.range_eq_range'] at h1
  obtain ⟨-, hall⟩ := cacheOuter_ok _ _ _ _ _ _ h1
  have hc' : c.BinsCompatible j i = .ok true := by rw [BinsCompatible_comm]; exact hc
  have key : ∀ a b, a < c.fPdfMapping.GetNBins → b < c.fPdfMapping.GetNBins → a ≠ b →
      c.BinsCompatible a b = .ok true → c.BinsCompatible b a = .ok true →
      b ∈ bins.getD a [] := by
    intro a b ha hb hab hab1 hab2
    obtain ⟨added, g1, -, g3⟩ := hall a
    rw [g1, List.mem_append]
    right
    rw [g3]
    rcases Nat.lt_or_gt_of_ne hab with h9 | h9
    · exact Or.inl ⟨Nat.zero_le _, by omega, h9, hb, hab1⟩
    · exact Or.inr ⟨Nat.zero_le _, by omega, h9, ha, hab2⟩
  exact ⟨key i j hi hj hij hc hc', key j i hj hi (Ne.symm hij) hc' hc⟩

/-- After `CacheCompatibleBins()` has run on a `Convolution` whose lists were empty,
over a mapping with `N` bins: two distinct bins `i, j < N` with
`BinsCompatible(i, j)` are each in the other's list; a bin `j` in the list of `i`
is a bin below `N`, distinct from `i` and compatible with it; and membership is
symmetric. -/
theorem cache_lists_symmetric (c c1 : Convolution α K) (hfresh : c.fCompatibleBins = [])
    (h : c.CacheCompatibleBins = (.ok (), c1)) :
    (∀ i j, i < c.fPdfMapping.GetNBins → j < c.fPdfMapping.GetNBins → i ≠ j →
      c.BinsCompatible i j = .ok true →
        j ∈ c1.fCompatibleBins.getD i [] ∧ i ∈ c1.fCompatibleBins.getD j []) ∧
    (∀ i j, j ∈ c1.fCompatibleBins.getD i [] →
      i < c.fPdfMapping.GetNBins ∧ j < c.fPdfMapping.GetNBins ∧ i ≠ j ∧
        c.BinsCompatible i j = .ok true) ∧
    (∀ i j, j ∈ c1.fCompatibleBins.getD i [] ↔ i ∈ c1.fCompatibleBins.getD j []) := by
  obtain ⟨-, hl⟩ := CacheCompatibleBins_lists c c1 hfresh h
  refine ⟨fun i j hi hj hij hc => ⟨((hl i).2 j).2 ⟨hij, hi, hj, hc⟩,
      ((hl j).2 i).2 ⟨Ne.symm hij, hj, hi, by rw [BinsCompatible_comm]; exact hc⟩⟩,
    fun i j hm => ?_, fun i j => ?_⟩
  · obtain ⟨h1, h2, h3, h4⟩ := ((hl i).2 j).1 hm
    exact ⟨h2, h3, h1, h4⟩
  · rw [(hl i).2 j, (hl j).2 i, BinsCompatible_comm c j i]
    constructor
    · rintro ⟨h1, h2, h3, h4⟩; exact ⟨Ne.symm h1, h3, h2, h4⟩
    · rintro ⟨h1, h2, h3, h4⟩; exact ⟨Ne.symm h1, h3, h2, h4⟩

end Convolution

end Oxsx

namespace Oxsx

namespace Convolution

variable {α K : Type}

/-- What a successful inner sub-matrix loop wrote: it kept the axes and the entries
it found, added for the origin bin only kernel values, and covered every
destination bin. -/
theorem subMapInner_ok [Sub α] (ops : KernelOps α K) (pdf : K) (sysAxes : AxisCollection α)
    (origBin : Nat) (binCentres : List α) (dests : List Nat) (m m1 : PdfMapping α)
    (hc : sysAxes.GetBinCentres origBin = .ok binCentres)
    (h : subMapInner ops pdf sysAxes origBin binCentres dests m = .ok m1) :
    m1.fAxes = m.fAxes ∧
    (∀ t ∈ m1.entries, t ∈ m.entries ∨ IsKernelValue ops pdf sysAxes t.1 t.2.1 t.2.2) ∧
    (∀ t ∈ m.entries, t ∈ m1.entries) ∧
    (∀ d ∈ dests, ∃ v, (d, origBin, v) ∈ m1.entries) := by
  induction dests generalizing m with
  | nil =>
    simp only [subMapInner, Except.ok.injEq] at h
    subst h
    exact ⟨rfl, fun t ht => Or.inl ht, fun t ht => ht, fun d hd => by cases hd⟩
  | cons d rest ih =>
    simp only [subMapInner] at h
    split at h
    · cases h
    · rename_i low hlow
      split at h
      · cases h
      · rename_i high hhigh
        split at h
        · cases h
        · rename_i m0 hset
          unfold PdfMapping.SetComponent at hset
          split at hset
          · cases hset
          · simp only [Except.ok.injEq] at hset
            subst hset
            obtain ⟨h1, h2, h3, h4⟩ := ih _ h
            refine ⟨h1, fun t ht => ?_, fun t ht => h3 t (List.mem_cons_of_mem _ ht),
              fun x hx => ?_⟩
            · rcases h2 t ht with h5 | h5
              · rcases List.mem_cons.1 h5 with h6 | h6
                · right
                  subst h6
                  exact ⟨low, high, binCentres, hlow, hhigh, hc, rfl⟩
                · exact Or.inl h6
              · exact Or.inr h5
            · rcases List.mem_cons.1 hx with h5 | h5
              · subst h5
                exact ⟨_, h3 _ (List.mem_cons_self _ _)⟩
              · exact h4 x h5

/-- What a successful outer sub-matrix loop wrote. -/
theorem subMapOuter_ok [Sub α] (ops : KernelOps α K) (pdf : K) (sysAxes : AxisCollection α)
    (origs : List Nat) (m m1 : PdfMapping α)
    (h : subMapOuter ops pdf sysAxes origs m = .ok m1) :
    m1.fAxes = m.fAxes ∧
    (∀ t ∈ m1.entries, t ∈ m.entries ∨ IsKernelValue ops pdf sysAxes t.1 t.2.1 t.2.2) ∧
    (∀ t ∈ m.entries, t ∈ m1.entries) ∧
    (∀ o ∈ origs, ∀ d ∈ List.range sysAxes.GetNBins, ∃ v, (d, o, v) ∈ m1.entries) := by
  induction origs generalizing m with
  | nil =>
    simp only [subMapOuter, Except.ok.injEq] at h
    subst h
    exact ⟨rfl, fun t ht => Or.inl ht, fun t ht => ht, fun o ho => by cases ho⟩
  | cons o rest ih =>
    simp only [subMapOuter] at h
    split at h
    · cases h
    · rename_i centres hc
      split at h
      · cases h
      · rename_i m0 hin
        obtain ⟨g1, g2, g3, g4⟩ := subMapInner_ok ops pdf sysAxes o centres _ m m0 hc hin
        obtain ⟨h1, h2, h3, h4⟩ := ih _ h
        refine ⟨h1.trans g1, fun t ht => ?_, fun t ht => h3 t (g3 t ht), fun x hx d hd => ?_⟩
        · rcases h2 t ht with h5 | h5
          · exact g2 t h5
          · exact Or.inr h5
        · rcases List.mem_cons.1 hx with h5 | h5
          · subst h5
            obtain ⟨v, hv⟩ := g4 d hd
            exact ⟨v, h3 _ hv⟩
          · exact h4 x h5 d hd

/-- Every component read from the sub-matrix that `Construct` builds is the kernel
value of its row and column. -/
theorem subMap_component [Zero α] [Sub α] (ops : KernelOps α K) (pdf : K) (sysAxes : AxisCollection α)
    (subMap : PdfMapping α)
    (h : subMapOuter ops pdf sysAxes (List.range sysAxes.GetNBins)
      (PdfMapping.new.SetAxes sysAxes) = .ok subMap)
    (row col : Nat) (v : α) (hv : subMap.GetComponent row col = .ok v) :
    IsKernelValue ops pdf sysAxes row col v := by
  obtain ⟨h1, h2, -, h4⟩ := subMapOuter_ok ops pdf sysAxes _ _ subMap h
  unfold PdfMapping.GetComponent at hv
  split at hv
  · cases hv
  · rename_i hrange
    simp only [PdfMapping.GetNBins, h1, PdfMapping.SetAxes, not_or, not_le, ge_iff_le] at hrange
    split at hv
    · rename_i t ht
      simp only [Except.ok.injEq] at hv
      have hmem := List.mem_of_find?_eq_some ht
      have hp := List.find?_some ht
      simp only [Bool.and_eq_true, beq_iff_eq] at hp
      rcases h2 t hmem with h5 | h5
      · simp [PdfMapping.SetAxes] at h5
      · rw [hp.1, hp.2, hv] at h5
        exact h5
    · rename_i hnone
      exfalso
      obtain ⟨w, hw⟩ := h4 col (List.mem_range.2 hrange.2) row (List.mem_range.2 hrange.1)
      have := List.find?_eq_none.1 hnone _ hw
      simp at this

/-- What a successful inner expansion loop pushed. -/
theorem expandInner_ok [Zero α] (subMap : PdfMapping α) (sysBins : List Nat) (origBin : Nat)
    (dests : List Nat) (acc acc1 : List (Nat × Nat × α))
    (h : expandInner subMap sysBins origBin dests acc = .ok acc1) :
    ∃ pushed : List (Nat × Nat × α), acc1 = acc ++ pushed ∧
      pushed.map (fun t => (t.1, t.2.1)) = dests.map (fun d => (origBin, d)) ∧
      ∀ t ∈ pushed, ∃ so sd, sysBins[t.1]? = some so ∧ sysBins[t.2.1]? = some sd ∧
        subMap.GetComponent so sd = .ok t.2.2 := by
  induction dests generalizing acc with
  | nil =>
    simp only [expandInner, Except.ok.injEq] at h
    exact ⟨[], by simp [h], rfl, fun t ht => by cases ht⟩
  | cons d rest ih =>
    simp only [expandInner] at h
    split at h
    · cases h
    · rename_i so hso
      split at h
      · cases h
      · rename_i sd hsd
        split at h
        · cases h
        · rename_i v hv
          obtain ⟨pushed, h1, h2, h3⟩ := ih _ h
          refine ⟨(origBin, d, v) :: pushed, by rw [h1]; simp, by simp [h2], fun t ht => ?_⟩
          rcases List.mem_cons.1 ht with h5 | h5
          · subst h5
            exact ⟨so, sd, (vectorAt_ok _ _ _).1 hso, (vectorAt_ok _ _ _).1 hsd, hv⟩
          · exact h3 t h5

/-- What a successful outer expansion loop pushed. -/
theorem expandOuter_ok [Zero α] (subMap : PdfMapping α) (sysBins : List Nat)
    (compatibleBins : List (List Nat)) (origs : List Nat) (acc acc1 : List (Nat × Nat × α))
    (h : expandOuter subMap sysBins compatibleBins origs acc = .ok acc1) :
    ∃ pushed : List (Nat × Nat × α), acc1 = acc ++ pushed ∧
      pushed.map (fun t => (t.1, t.2.1))
        = origs.flatMap (fun r => (compatibleBins.getD r []).map (fun d => (r, d))) ∧
      ∀ t ∈ pushed, ∃ so sd, sysBins[t.1]? = some so ∧ sysBins[t.2.1]? = some sd ∧
        subMap.GetComponent so sd = .ok t.2.2 := by
  induction origs generalizing acc with
  | nil =>
    simp only [expandOuter, Except.ok.injEq] at h
    exact ⟨[], by simp [h], rfl, fun t ht => by cases ht⟩
  | cons o rest ih =>
    simp only [expandOuter] at h
    split at h
    · cases h
    · rename_i dests hd
      split at h
      · cases h
      · rename_i acc0 hin
        obtain ⟨p0, g1, g2, g3⟩ := expandInner_ok subMap sysBins o dests acc acc0 hin
        obtain ⟨p1, h1, h2, h3⟩ := ih _ h
        have hd1 : compatibleBins.getD o [] = dests := by
          rw [List.getD_eq_getElem?_getD, (vectorAt_ok _ _ _).1 hd]; rfl
        refine ⟨p0 ++ p1, by rw [h1, g1, List.append_assoc], ?_, fun t ht => ?_⟩
        · rw [List.map_append, g2, h2, List.flatMap_cons, hd1]
        · rcases List.mem_append.1 ht with h5 | h5
          · exact g3 t h5
          · exact h3 t h5

/-- Three vectors unzipped from a list of triples zip back to the list. -/
theorem zip_unzip_triples {β : Type} (l : List (Nat × Nat × β)) :
    List.zip (l.map (fun t => t.1)) (List.zip (l.map (fun t => t.2.1)) (l.map (fun t => t.2.2)))
      = l := by
  induction l with
  | nil => rfl
  | cons t rest ih => simp [ih]

end Convolution

end Oxsx

namespace Oxsx

namespace Convolution

variable {α K : Type}

/-- `vectorResize` gives the requested length. -/
theorem length_vectorResize {β : Type} (v : List β) (n : Nat) (d : β) :
    (vectorResize v n d).length = n := by
  simp only [vectorResize, List.length_append, List.length_take, List.length_replicate]
  omega

/-- The per-dimension loop of `CacheCompatibleBins` returns, for every relative
index, the index that `UnflattenIndex` gives the bin on that axis. -/
theorem sysIndices_ok (axes : AxisCollection α) (i : Nat) (rel idxs : List Nat)
    (h : sysIndices axes i rel = .ok idxs) :
    List.Forall₂ (fun r idx => axes.UnflattenIndex i r = .ok idx) rel idxs := by
  induction rel generalizing idxs with
  | nil =>
    simp only [sysIndices, Except.ok.injEq] at h
    subst h
    exact List.Forall₂.nil
  | cons r rest ih =>
    simp only [sysIndices] at h
    split at h
    · cases h
    · rename_i idx hidx
      split at h
      · cases h
      · rename_i rest1 hrest
        simp only [Except.ok.injEq] at h
        subst h
        exact List.Forall₂.cons hidx (ih _ hrest)

/-- What a successful `fSysBins` loop over the bins `k, …, k+m-1` wrote. -/
theorem fillSysBins_ok (axes sysAxes : AxisCollection α) (rel : List Nat) (m k : Nat)
    (sysBins sysBins1 : List Nat)
    (h : fillSysBins axes sysAxes rel (List.range' k m) sysBins = (.ok (), sysBins1)) :
    sysBins1.length = sysBins.length ∧
    (∀ b, k ≤ b → b < k + m → b < sysBins.length →
      ∃ idxs flat, sysIndices axes b rel = .ok idxs ∧
        sysAxes.FlattenIndices idxs = .ok flat ∧ sysBins1[b]? = some flat) ∧
    (∀ b, ¬ (k ≤ b ∧ b < k + m) → sysBins1[b]? = sysBins[b]?) := by
  induction m generalizing k sysBins with
  | zero =>
    simp only [List.range'_zero, fillSysBins, Prod.mk.injEq, true_and] at h
    subst h
    exact ⟨rfl, fun b h1 h2 => by omega, fun b _ => rfl⟩
  | succ m ih =>
    rw [List.range'_succ] at h
    simp only [fillSysBins] at h
    split at h
    · simp at h
    · rename_i idxs hidx
      split at h
      · simp at h
      · rename_i flat hflat
        obtain ⟨h1, h2, h3⟩ := ih (k + 1) _ h
        rw [List.length_set] at h1 h2
        refine ⟨h1, fun b hb1 hb2 hb3 => ?_, fun b hb => ?_⟩
        · rcases Nat.eq_or_lt_of_le hb1 with h4 | h4
          · subst h4
            refine ⟨idxs, flat, hidx, hflat, ?_⟩
            rw [h3 k (by omega), List.getElem?_set_self hb3]
          · exact h2 b h4 (by omega) hb3
        · rw [h3 b (by omega), List.getElem?_set_ne (by omega)]

/-- What a successful `constructBody` did, step by step. -/
theorem constructBody_ok [Zero α] [Sub α] (ops : KernelOps α K) (pdf : K) (c c1 : Convolution α K)
    (h : constructBody ops pdf c = (.ok (), c1)) :
    ∃ (subMap : PdfMapping α) (triples : List (Nat × Nat × α)),
      subMapOuter ops pdf c.fSysAxes (List.range c.fSysAxes.GetNBins)
        (PdfMapping.new.SetAxes c.fSysAxes) = .ok subMap ∧
      expandOuter subMap c.fSysBins c.fCompatibleBins
        (List.range c.fPdfMapping.GetAxes.GetNBins) [] = .ok triples ∧
      c1 = { c with fPdfMapping := { c.fPdfMapping with entries := triples } } := by
  unfold constructBody at h
  simp only at h
  split at h
  · simp at h
  · split at h
    · simp at h
    · rename_i subMap hsub
      split at h
      · simp at h
      · split at h
        · simp at h
        · rename_i triples hexp
          split at h
          · simp at h
          · rename_i mapping hset
            unfold PdfMapping.SetComponents at hset
            split at hset
            · cases hset
            · simp only [Except.ok.injEq] at hset
              rw [zip_unzip_triples] at hset
              subst hset
              simp only [Prod.mk.injEq, true_and] at h
              exact ⟨subMap, triples, hsub, hexp, h.symm⟩

/-- What a successful `Construct` did: the cache was in place or was computed by
this call, and `constructBody` ran on the state that holds it. -/
theorem Construct_ok [Zero α] [Sub α] (ops : KernelOps α K) (c c2 : Convolution α K)
    (h : Construct ops c = (.ok (), c2)) :
    ∃ (pdf : K) (c1 : Convolution α K), c.fPdf = some pdf ∧ c.fHasAxes = true ∧
      ((c.fCachedCompatibleBins = true ∧ c1 = c) ∨
        (c.fCachedCompatibleBins = false ∧ c.CacheCompatibleBins = (.ok (), c1))) ∧
      constructBody ops pdf c1 = (.ok (), c2) := by
  unfold Construct at h
  split at h
  · simp at h
  · simp at h
  · rename_i pdf hp ha
    split at h
    · rename_i hflag
      split at h
      · simp at h
      · rename_i u c1 hcache
        split at h
        · simp at h
        · rename_i u2 c3 hbody
          simp only [Prod.mk.injEq, true_and] at h
          subst h
          refine ⟨pdf, c1, hp, ha, Or.inr ⟨by simpa using hflag, hcache⟩, hbody⟩
    · rename_i hflag
      split at h
      · simp at h
      · rename_i u2 c3 hbody
        simp only [Prod.mk.injEq, true_and] at h
        subst h
        refine ⟨pdf, c, hp, ha, Or.inl ⟨by simpa using hflag, rfl⟩, hbody⟩

/-- What a successful reduced-axes loop of `CacheCompatibleBins` appended: for every
relative index, in order, the axis that `GetAxis` gives for it. -/
theorem buildSysAxes_ok (axes : AxisCollection α) (rel : List Nat) (sys0 sys : AxisCollection α)
    (h : buildSysAxes axes rel sys0 = (.ok (), sys)) :
    ∃ added : List (PdfAxis α), sys.fAxes = sys0.fAxes ++ added ∧
      List.Forall₂ (fun r a => axes.GetAxis r = .ok a) rel added := by
  induction rel generalizing sys0 with
  | nil =>
    simp only [buildSysAxes, Prod.mk.injEq, true_and] at h
    subst h
    exact ⟨[], by simp, List.Forall₂.nil⟩
  | cons r rest ih =>
    simp only [buildSysAxes] at h
    split at h
    · simp at h
    · rename_i axis haxis
      split at h
      · simp at h
      · rename_i sys1 hadd
        obtain ⟨added, h1, h2⟩ := ih _ h
        unfold AxisCollection.AddAxis at hadd
        split at hadd
        · cases hadd
        · simp only [Except.ok.injEq] at hadd
          subst hadd
          exact ⟨axis :: added, by rw [h1]; simp, List.Forall₂.cons haxis h2⟩

/-- The triples that a successful `Construct` hands to the mapping, and the cache
they are read from.  The `(row, col)` pairs of the triples are, in order, the pairs
`(r, d)` for every full-space bin `r` and every `d` in the cached compatibility list
of `r`; the value of a triple `(r, d, v)` is the kernel value at the reduced bins
`fSysBins[r]`, `fSysBins[d]` of `fSysAxes`.  When this call computed the cache,
`fSysAxes` holds the axes of the mapping at the relative indices of the systematic,
in order, and `fSysBins[b]` is the flattened index in `fSysAxes` of the indices that
`UnflattenIndex` gives bin `b` on those axes; and when the lists were empty before,
no pair occurs twice. -/
theorem Construct_entries [Zero α] [Sub α] (ops : KernelOps α K) (c c2 : Convolution α K)
    (h : Construct ops c = (.ok (), c2)) :
    ∃ pdf : K, c.fPdf = some pdf ∧
      c2.fPdfMapping.entries.map (fun t => (t.1, t.2.1))
        = (List.range c2.fPdfMapping.GetNBins).flatMap
            (fun r => (c2.fCompatibleBins.getD r []).map (fun d => (r, d))) ∧
      (∀ t ∈ c2.fPdfMapping.entries, ∃ so sd,
        c2.fSysBins[t.1]? = some so ∧ c2.fSysBins[t.2.1]? = some sd ∧
          IsKernelValue ops pdf c2.fSysAxes so sd t.2.2) ∧
      (c.fCachedCompatibleBins = false →
        (∃ rel, GetRelativeIndices c2.fDataRep c2.fPdfDataRep = .ok rel ∧
          List.Forall₂ (fun r a => c2.fPdfMapping.GetAxes.GetAxis r = .ok a)
            rel c2.fSysAxes.fAxes ∧
          ∀ b, b < c2.fPdfMapping.GetNBins →
            ∃ idxs flat,
              List.Forall₂ (fun r idx => c2.fPdfMapping.GetAxes.UnflattenIndex b r = .ok idx)
                rel idxs ∧
              c2.fSysAxes.FlattenIndices idxs = .ok flat ∧ c2.fSysBins[b]? = some flat) ∧
        (c.fCompatibleBins = [] →
          (c2.fPdfMapping.entries.map (fun t => (t.1, t.2.1))).Nodup)) := by
  obtain ⟨pdf, c1, hp, -, hcache, hbody⟩ := Construct_ok ops c c2 h
  obtain ⟨subMap, triples, hsub, hexp, hc2⟩ := constructBody_ok ops pdf c1 c2 hbody
  obtain ⟨pushed, h1, h2, h3⟩ := expandOuter_ok _ _ _ _ _ _ hexp
  rw [List.nil_append] at h1
  subst h1
  subst hc2
  have hpairs : triples.map (fun t => (t.1, t.2.1))
      = (List.range c1.fPdfMapping.GetNBins).flatMap
          (fun r => (c1.fCompatibleBins.getD r []).map (fun d => (r, d))) := h2
  refine ⟨pdf, hp, hpairs, fun t ht => ?_, fun hflag => ?_⟩
  · obtain ⟨so, sd, g1, g2, g3⟩ := h3 t ht
    exact ⟨so, sd, g1, g2, subMap_component ops pdf _ subMap hsub so sd _ g3⟩
  · rcases hcache with ⟨hf, -⟩ | ⟨-, hcc⟩
    · rw [hflag] at hf; cases hf
    · obtain ⟨bins, rel, sys, sysBins, -, hrel, hsys, hfill, hc1⟩ :=
        CacheCompatibleBins_ok c c1 hcc
      constructor
      · obtain ⟨added, ha1, ha2⟩ := buildSysAxes_ok _ _ _ _ hsys
        rw [List.range_eq_range'] at hfill
        obtain ⟨-, g2, -⟩ := fillSysBins_ok _ _ _ _ _ _ _ hfill
        subst hc1
        refine ⟨rel, hrel, ?_, fun b hb => ?_⟩
        · have : sys.fAxes = added := by rw [ha1]; rfl
          rw [← this] at ha2
          exact ha2
        · obtain ⟨idxs, flat, k1, k2, k3⟩ := g2 b (Nat.zero_le b)
            (by simpa [PdfMapping.GetNBins, PdfMapping.GetAxes] using hb)
            (by rw [length_vectorResize]; exact hb)
          exact ⟨idxs, flat, sysIndices_ok _ _ _ _ k1, k2, k3⟩
      · intro hfresh
        obtain ⟨-, hl⟩ := CacheCompatibleBins_lists c c1 hfresh hcc
        show (triples.map (fun t => (t.1, t.2.1))).Nodup
        rw [hpairs, List.nodup_flatMap]
        constructor
        · intro r _
          exact ((hl r).1).map (fun x y hxy => by simpa using hxy)
        · refine (List.nodup_range _).pairwise_of_forall_ne fun r _ s _ hrs => ?_
          intro p hp1 hp2
          simp only [List.mem_map] at hp1 hp2
          obtain ⟨d1, -, e1⟩ := hp1
          obtain ⟨d2, -, e2⟩ := hp2
          rw [← e2] at e1
          simp only [Prod.mk.injEq] at e1
          exact hrs e1.1

end Convolution

end Oxsx

namespace Oxsx

namespace Convolution

variable {α K : Type}

/-- The first `Construct()` on a `Convolution` leaves every diagonal component of
the mapping zero, whatever the kernel: no bin is in its own compatibility list, so
no triple `(i, i, v)` is handed to the mapping. -/
theorem Construct_diagonal [Zero α] [Sub α] (ops : KernelOps α K) (c c2 : Convolution α K)
    (hflag : c.fCachedCompatibleBins = false) (hfresh : c.fCompatibleBins = [])
    (h : Construct ops c = (.ok (), c2)) (i : Nat) (hi : i < c2.fPdfMapping.GetNBins) :
    c2.fPdfMapping.GetComponent i i = .ok 0 := by
  obtain ⟨pdf, -, hpairs, -, -⟩ := Construct_entries ops c c2 h
  obtain ⟨pdf1, c1, -, -, hcache, hbody⟩ := Construct_ok ops c c2 h
  obtain ⟨subMap, triples, -, -, hc2⟩ := constructBody_ok ops pdf1 c1 c2 hbody
  rcases hcache with ⟨hf, -⟩ | ⟨-, hcc⟩
  · rw [hflag] at hf; cases hf
  · obtain ⟨-, hl⟩ := CacheCompatibleBins_lists c c1 hfresh hcc
    have hlists : c2.fCompatibleBins = c1.fCompatibleBins := by rw [hc2]
    unfold PdfMapping.GetComponent
    rw [if_neg (by omega)]
    have hnone : c2.fPdfMapping.entries.find? (fun t => t.1 == i && t.2.1 == i) = none := by
      rw [List.find?_eq_none]
      intro t ht hp
      simp only [Bool.and_eq_true, beq_iff_eq] at hp
      have hmem : (t.1, t.2.1) ∈ c2.fPdfMapping.entries.map (fun t => (t.1, t.2.1)) :=
        List.mem_map.2 ⟨t, ht, rfl⟩
      rw [hpairs, List.mem_flatMap] at hmem
      obtain ⟨r, -, hr⟩ := hmem
      rw [List.mem_map] at hr
      obtain ⟨d, hd, hrd⟩ := hr
      simp only [Prod.mk.injEq] at hrd
      rw [hlists] at hd
      have := ((hl r).2 d).1 hd
      omega
    rw [hnone]

/-- `SetAxes` followed by `Construct()` on a `Convolution` whose cache flag is set
leaves the compatibility lists, the reduced axes and the reduced-bin ids as they
were before `SetAxes`, whatever the new axes. -/
theorem Construct_after_SetAxes [Zero α] [Sub α] (ops : KernelOps α K) (c : Convolution α K)
    (axes_ : AxisCollection α) (hflag : c.fCachedCompatibleBins = true) :
    (Construct ops (c.SetAxes axes_)).2.fCompatibleBins = c.fCompatibleBins ∧
    (Construct ops (c.SetAxes axes_)).2.fSysAxes = c.fSysAxes ∧
    (Construct ops (c.SetAxes axes_)).2.fSysBins = c.fSysBins := by
  have hf : (c.SetAxes axes_).fCachedCompatibleBins = true := hflag
  unfold Construct
  split
  · exact ⟨rfl, rfl, rfl⟩
  · exact ⟨rfl, rfl, rfl⟩
  · rename_i pdf _ _
    rw [hf]
    simp only [Bool.not_true, Bool.false_eq_true, if_false]
    have hb := constructBody_frame ops pdf (c.SetAxes axes_)
    split
    · rename_i e c2 h2
      rw [h2] at hb
      exact ⟨hb.2.2.2.2.1, hb.2.2.2.2.2.1, hb.2.2.2.2.2.2.1⟩
    · rename_i u2 c2 h2
      rw [h2] at hb
      exact ⟨hb.2.2.2.2.1, hb.2.2.2.2.2.1, hb.2.2.2.2.2.2.1⟩

end Convolution

/-- **C4 fails on the code.** The kernel `delta` puts all mass at zero displacement
(the integral over `[-1, 1)` is 1, over `[1, 3)` it is 0; the kernel value of the
reduced sub-matrix at `(0, 0)` is 1), `Construct()` succeeds on the three-bin axis,
and the mapping it produces has 0, not 1, in every diagonal component: its triples
are the six off-diagonal ones, all with value 0. -/
theorem construct_delta_kernel_not_identity :
    simpleKernelOps.Integral .delta [-1] [1] = 1 ∧
    simpleKernelOps.Integral .delta [1] [3] = 0 ∧
    IsKernelValue simpleKernelOps .delta axesX3 0 0 1 ∧
    (Convolution.Construct simpleKernelOps (convolutionOn .delta axesX3)).1 = .ok () ∧
    (Convolution.Construct simpleKernelOps (convolutionOn .delta axesX3)).2.fPdfMapping.GetNBins
      = 3 ∧
    (Convolution.Construct simpleKernelOps (convolutionOn .delta axesX3)).2.fPdfMapping.entries
      = [(0, 1, 0), (0, 2, 0), (1, 0, 0), (1, 2, 0), (2, 0, 0), (2, 1, 0)] ∧
    (Convolution.Construct simpleKernelOps
      (convolutionOn .delta axesX3)).2.fPdfMapping.GetComponent 0 0 = .ok 0 ∧
    (Convolution.Construct simpleKernelOps
      (convolutionOn .delta axesX3)).2.fPdfMapping.GetComponent 1 1 = .ok 0 ∧
    (Convolution.Construct simpleKernelOps
      (convolutionOn .delta axesX3)).2.fPdfMapping.GetComponent 2 2 = .ok 0 :=
  ⟨by decide, by decide, ⟨[0], [2], [1], by decide, by decide, by decide, by decide⟩,
    by decide, by decide, by decide, by decide, by decide, by decide⟩

/-- **C9 fails on the code.** `SetAxes` leaves `fCachedCompatibleBins` set, so the
next `Construct()` reads the lists of the old axes.  After a `Construct()` on two
bins and `SetAxes` to three bins, `Construct()` throws `std::out_of_range` where a
new `Convolution` on three bins succeeds; after a `Construct()` on three bins and
`SetAxes` to two bins, `Construct()` succeeds with the lists of three bins and hands
the mapping triples for bin 2, where a new `Convolution` on two bins hands it two
triples. -/
theorem setAxes_keeps_stale_cache :
    regrownConvolution.fCachedCompatibleBins = true ∧
    regrownConvolution.fCompatibleBins = [[1], [0]] ∧
    regrownConvolution.fPdfMapping.GetNBins = 3 ∧
    (Convolution.Construct simpleKernelOps regrownConvolution).1
      = .error (.Library .OutOfRange) ∧
    (Convolution.Construct simpleKernelOps (convolutionOn .flat axesX3)).1 = .ok () ∧
    (Convolution.Construct simpleKernelOps (convolutionOn .flat axesX3)).2.fCompatibleBins
      = [[1, 2], [0, 2], [0, 1]] ∧
    shrunkConvolution.fPdfMapping.GetNBins = 2 ∧
    (Convolution.Construct simpleKernelOps shrunkConvolution).1 = .ok () ∧
    (Convolution.Construct simpleKernelOps shrunkConvolution).2.fCompatibleBins
      = [[1, 2], [0, 2], [0, 1]] ∧
    (Convolution.Construct simpleKernelOps shrunkConvolution).2.fPdfMapping.entries
      = [(0, 1, 2), (0, 2, 2), (1, 0, 2), (1, 2, 2)] ∧
    (Convolution.Construct simpleKernelOps (convolutionOn .flat axesX2)).2.fCompatibleBins
      = [[1], [0]] ∧
    (Convolution.Construct simpleKernelOps (convolutionOn .flat axesX2)).2.fPdfMapping.entries
      = [(0, 1, 2), (1, 0, 2)] := by
  decide

/-- `CacheCompatibleBins` on `convolutionY`, which acts on `y` alone: the lists
pair each bin with the one bin that shares its `x` index, symmetrically. -/
theorem cache_lists_symmetric_witness :
    convolutionY.fCompatibleBins = [] ∧
    convolutionY.CacheCompatibleBins.1 = .ok () ∧
    convolutionY.CacheCompatibleBins.2.fCompatibleBins = [[1], [0], [3], [2], [5], [4]] ∧
    (∀ i j, j ∈ convolutionY.CacheCompatibleBins.2.fCompatibleBins.getD i [] ↔
      i ∈ convolutionY.CacheCompatibleBins.2.fCompatibleBins.getD j []) :=
  ⟨by decide, by decide, by decide,
    (Convolution.cache_lists_symmetric convolutionY convolutionY.CacheCompatibleBins.2
      (by decide) (by decide)).2.2⟩

/-- `Construct` on `convolutionY`: six triples, one for each ordered pair of bins
that share their `x` index. -/
theorem Construct_entries_convolutionY :
    (Convolution.Construct simpleKernelOps convolutionY).1 = .ok () ∧
    (Convolution.Construct simpleKernelOps convolutionY).2.fPdfMapping.entries
      = [(0, 1, 2), (1, 0, 2), (2, 3, 2), (3, 2, 2), (4, 5, 2), (5, 4, 2)] ∧
    (Convolution.Construct simpleKernelOps convolutionY).2.fSysBins = [0, 1, 0, 1, 0, 1] ∧
    ∃ pdf : SimpleKernel, convolutionY.fPdf = some pdf ∧
      (Convolution.Construct simpleKernelOps convolutionY).2.fPdfMapping.entries.map
          (fun t => (t.1, t.2.1))
        = (List.range
            (Convolution.Construct simpleKernelOps convolutionY).2.fPdfMapping.GetNBins).flatMap
            (fun r => ((Convolution.Construct simpleKernelOps
              convolutionY).2.fCompatibleBins.getD r []).map (fun d => (r, d))) ∧
      ∀ t ∈ (Convolution.Construct simpleKernelOps convolutionY).2.fPdfMapping.entries,
        ∃ so sd,
          (Convolution.Construct simpleKernelOps convolutionY).2.fSysBins[t.1]? = some so ∧
          (Convolution.Construct simpleKernelOps convolutionY).2.fSysBins[t.2.1]? = some sd ∧
          IsKernelValue simpleKernelOps pdf
            (Convolution.Construct simpleKernelOps convolutionY).2.fSysAxes so sd t.2.2 :=
  ⟨by decide, by decide, by decide,
    match Convolution.Construct_entries simpleKernelOps convolutionY
      (Convolution.Construct simpleKernelOps convolutionY).2 (by decide) with
    | ⟨pdf, h1, h2, h3, _⟩ => ⟨pdf, h1, h2, h3⟩⟩

/-- **C5 fails on the code.** `CacheCompatibleBins` resizes the lists and appends to
them; it never empties them.  A `Convolution` on observables 0 and 2 of three, given
the one-axis collection by mistake: `Construct()` fills the lists for three bins,
then throws `std::out_of_range` at `GetAxis(2)`, with the flag still false.  After
`SetAxes` to the three axes `x`, `y`, `z` (eight bins) `CacheCompatibleBins` runs
again and succeeds, appending to what the failed run left: the list of bin 0 is
`[1, 2, 1, 4, 5]`, which holds bin 2 although `BinsCompatible(0, 2)` is false, and
bin 1 twice.  A new `Convolution` on the same axes gets `[1, 4, 5]`. -/
theorem cache_appends_to_lists_of_failed_run :
    (Convolution.Construct simpleKernelOps (convolutionXZ axesX3)).1
      = .error (.Library .OutOfRange) ∧
    (Convolution.Construct simpleKernelOps (convolutionXZ axesX3)).2.fCachedCompatibleBins
      = false ∧
    (Convolution.Construct simpleKernelOps (convolutionXZ axesX3)).2.fCompatibleBins
      = [[1, 2], [0, 2], [0, 1]] ∧
    retriedConvolution.fPdfMapping.GetNBins = 8 ∧
    retriedConvolution.CacheCompatibleBins.1 = .ok () ∧
    retriedConvolution.CacheCompatibleBins.2.fCompatibleBins
      = [[1, 2, 1, 4, 5], [0, 2, 0, 4, 5], [0, 1, 3, 6, 7], [2, 6, 7], [0, 1, 5], [0, 1, 4],
          [2, 3, 7], [2, 3, 6]] ∧
    (Convolution.Construct simpleKernelOps retriedConvolution).1 = .ok () ∧
    (Convolution.Construct simpleKernelOps retriedConvolution).2.fCompatibleBins
      = retriedConvolution.CacheCompatibleBins.2.fCompatibleBins ∧
    2 ∈ retriedConvolution.CacheCompatibleBins.2.fCompatibleBins.getD 0 [] ∧
    retriedConvolution.BinsCompatible 0 2 = .ok false ∧
    (retriedConvolution.CacheCompatibleBins.2.fCompatibleBins.getD 0 []).count 1 = 2 ∧
    (convolutionXZ axesXYZ).CacheCompatibleBins.2.fCompatibleBins
      = [[1, 4, 5], [0, 4, 5], [3, 6, 7], [2, 6, 7], [0, 1, 5], [0, 1, 4], [2, 3, 7],
          [2, 3, 6]] := by
  decide

/-- **C10 fails on the code.** `Construct()` reads the cache as it finds it.  After
`Construct()` on the axes `x` of three bins and `y` of two, and `SetAxes` to `x` of
two bins and `y` of three, `Construct()` succeeds: `fSysBins` is still
`[0, 1, 0, 1, 0, 1]`, so `fSysBins[2]` is 0 where bin 2 has index 2 on the axis `y`
that the systematic acts on (a new `Convolution` on these axes gets
`[0, 1, 2, 0, 1, 2]`); `fSysAxes` still holds the two-bin `y`; and the mapping is
handed the six triples of the old lists, among them one for the pair `(2, 3)`
although `BinsCompatible(2, 3)` is false, where a new `Convolution` hands over twelve
triples.  After the failed `Construct()` of `retriedConvolution` the next
`Construct()` hands the mapping the pair `(0, 1)` twice. -/
theorem construct_reads_stale_cache :
    (Convolution.Construct simpleKernelOps convolutionY).1 = .ok () ∧
    reaxedConvolution.fCachedCompatibleBins = true ∧
    reaxedConvolution.fPdfMapping.GetAxes = axesX2Y3 ∧
    (Convolution.Construct simpleKernelOps reaxedConvolution).1 = .ok () ∧
    (Convolution.Construct simpleKernelOps reaxedConvolution).2.fSysBins
      = [0, 1, 0, 1, 0, 1] ∧
    GetRelativeIndices reaxedConvolution.fDataRep reaxedConvolution.fPdfDataRep = .ok [1] ∧
    axesX2Y3.UnflattenIndex 2 1 = .ok 2 ∧
    (Convolution.Construct simpleKernelOps reaxedConvolution).2.fSysAxes.FlattenIndices [2]
      = .ok 2 ∧
    (Convolution.Construct simpleKernelOps reaxedConvolution).2.fSysAxes.fAxes
      = [simpleAxis "y" 0 2] ∧
    axesX2Y3.GetAxis 1 = .ok (simpleAxis "y" 0 3) ∧
    (Convolution.Construct simpleKernelOps reaxedConvolution).2.fPdfMapping.entries
      = [(0, 1, 2), (1, 0, 2), (2, 3, 2), (3, 2, 2), (4, 5, 2), (5, 4, 2)] ∧
    reaxedConvolution.BinsCompatible 2 3 = .ok false ∧
    (Convolution.Construct simpleKernelOps convolutionY3).1 = .ok () ∧
    (Convolution.Construct simpleKernelOps convolutionY3).2.fSysBins = [0, 1, 2, 0, 1, 2] ∧
    (Convolution.Construct simpleKernelOps convolutionY3).2.fPdfMapping.entries
      = [(0, 1, 2), (0, 2, 2), (1, 0, 2), (1, 2, 2), (2, 0, 2), (2, 1, 2), (3, 4, 2),
          (3, 5, 2), (4, 3, 2), (4, 5, 2), (5, 3, 2), (5, 4, 2)] ∧
    (Convolution.Construct simpleKernelOps retriedConvolution).1 = .ok () ∧
    ((Convolution.Construct simpleKernelOps retriedConvolution).2.fPdfMapping.entries.map
      (fun t => (t.1, t.2.1))).count (0, 1) = 2 := by
  decide

end Oxsx

namespace Oxsx

section NLLHProofs7

variable {α PM SM SH DS EV PDF QC E : Type}

/-- `evaluateBody` writes neither the data PDF, nor its flag, nor the shrinker. -/
theorem evaluateBody_frame [Zero α] [Add α] [Sub α] [Mul α] [DecidableEq α]
    (K : Collaborators α PM SM SH DS EV PDF QC E) (s : BinnedNLLH α PM SM SH DS PDF QC) :
    (evaluateBody K s).2.fDataPdf = s.fDataPdf ∧
    (evaluateBody K s).2.fCalculatedDataPdf = s.fCalculatedDataPdf ∧
    (evaluateBody K s).2.fPdfShrinker = s.fPdfShrinker := by
  unfold evaluateBody
  split
  · exact ⟨rfl, rfl, rfl⟩
  · split
    · exact ⟨rfl, rfl, rfl⟩
    · split
      · exact ⟨rfl, rfl, rfl⟩
      · split
        · exact ⟨rfl, rfl, rfl⟩
        · simp only
          split
          · exact ⟨rfl, rfl, rfl⟩
          · split
            · exact ⟨rfl, rfl, rfl⟩
            · split <;> exact ⟨rfl, rfl, rfl⟩

/-- `SetBuffer` and `SetBufferAsOverflow` write the shrinker only: the cached data
PDF and its flag stay as they are. -/
theorem SetBuffer_frame (K : Collaborators α PM SM SH DS EV PDF QC E)
    (s : BinnedNLLH α PM SM SH DS PDF QC) (dim_ lower_ upper_ : Nat) (b_ : Bool) :
    (SetBuffer K s dim_ lower_ upper_).2.fDataPdf = s.fDataPdf ∧
    (SetBuffer K s dim_ lower_ upper_).2.fCalculatedDataPdf = s.fCalculatedDataPdf ∧
    (SetBufferAsOverflow K s b_).fDataPdf = s.fDataPdf ∧
    (SetBufferAsOverflow K s b_).fCalculatedDataPdf = s.fCalculatedDataPdf := by
  refine ⟨?_, ?_, rfl, rfl⟩
  · unfold SetBuffer
    split <;> rfl
  · unfold SetBuffer
    split <;> rfl

/-- Once the data PDF is cached, `SetBuffer` or `SetBufferAsOverflow` followed by
`Evaluate()` leaves the cached data PDF as it was before the shrinker was changed,
whatever the collaborators: `Evaluate` does not shrink the data again. -/
theorem Evaluate_after_SetBuffer [Zero α] [Add α] [Sub α] [Mul α] [DecidableEq α]
    (K : Collaborators α PM SM SH DS EV PDF QC E) (s : BinnedNLLH α PM SM SH DS PDF QC)
    (dim_ lower_ upper_ : Nat) (b_ : Bool) (h : s.fCalculatedDataPdf = true) :
    (Evaluate K (SetBuffer K s dim_ lower_ upper_).2).2.fDataPdf = s.fDataPdf ∧
    (Evaluate K (SetBufferAsOverflow K s b_)).2.fDataPdf = s.fDataPdf := by
  obtain ⟨h1, h2, h3, h4⟩ := SetBuffer_frame K s dim_ lower_ upper_ b_
  constructor
  · rw [Evaluate_cached K _ (h2.trans h), (evaluateBody_frame K _).1, h1]
  · rw [Evaluate_cached K _ (h4.trans h), (evaluateBody_frame K _).1, h3]

end NLLHProofs7

/-- **C11 fails on the code.** `SetBuffer` does not touch the cached data PDF, and
`Evaluate()` does not shrink it again.  (1) `SetDataPdf([3, 1, 0, 2])` and then
`SetBuffer(0, 1, 1)`: the four preparation steps succeed, the component PDF is
shrunk to two bins, the data PDF still has its four bins (the current settings
would give `[1, 0]`), and the per-bin loop fails reading the probability of bin 2.
(2) `SetBuffer(0, 1, 1)`, `SetDataPdf([3, 1, 0, 2])`, `SetBuffer(0, 0, 0)`: the data
PDF has two bins, the component PDF four, and `Evaluate()` returns 1, where the data
shrunk with the current settings gives -11.  (3) `SetDataSet`, `Evaluate()`,
`SetBuffer(0, 1, 1)`: the data PDF cached by the first `Evaluate()` keeps its four
bins and the second `Evaluate()` fails as in (1). -/
theorem setBuffer_keeps_stale_dataPdf :
    -- (1) SetBuffer after SetDataPdf
    (bufferAfterDataPdfExample.fCalculatedDataPdf = true ∧
      bufferAfterDataPdfExample.fPdfShrinker = ⟨1, 1, false⟩ ∧
      simple.ShrinkPdf bufferAfterDataPdfExample.fPdfShrinker [3, 1, 0, 2] = .ok [1, 0] ∧
      (Evaluate simple bufferAfterDataPdfExample).2.fPdfManager
        = ⟨[[1, 2, 4, 8]], [[2, 4]], [2]⟩ ∧
      (Evaluate simple bufferAfterDataPdfExample).2.fDataPdf = [3, 1, 0, 2] ∧
      simple.GetNBins (Evaluate simple bufferAfterDataPdfExample).2.fDataPdf = 4 ∧
      (Evaluate simple bufferAfterDataPdfExample).2.fPdfManager.fWorkingPdfs.map simple.GetNBins
        = [2] ∧
      (Evaluate simple bufferAfterDataPdfExample).1 = .error (.Collaborator ())) ∧
    -- (2) the buffer removed after SetDataPdf
    (bufferRemovedExample.fCalculatedDataPdf = true ∧
      bufferRemovedExample.fPdfShrinker = ⟨0, 0, false⟩ ∧
      simple.ShrinkPdf bufferRemovedExample.fPdfShrinker [3, 1, 0, 2] = .ok [3, 1, 0, 2] ∧
      (Evaluate simple bufferRemovedExample).2.fPdfManager
        = ⟨[[1, 2, 4, 8]], [[1, 2, 4, 8]], [2]⟩ ∧
      (Evaluate simple bufferRemovedExample).2.fDataPdf = [1, 0] ∧
      simple.GetNBins (Evaluate simple bufferRemovedExample).2.fDataPdf = 2 ∧
      (Evaluate simple bufferRemovedExample).2.fPdfManager.fWorkingPdfs.map simple.GetNBins
        = [4] ∧
      (Evaluate simple bufferRemovedExample).1 = .ok 1 ∧
      (Evaluate simple
        (SetDataPdf simple (simpleNLLH [[1, 2, 4, 8]] [2]) [3, 1, 0, 2]).2).1 = .ok (-11)) ∧
    -- (3) SetBuffer after a previous Evaluate
    (bufferAfterEvaluateExample.fCalculatedDataPdf = true ∧
      bufferAfterEvaluateExample.fPdfShrinker = ⟨1, 1, false⟩ ∧
      simple.ShrinkPdf bufferAfterEvaluateExample.fPdfShrinker [2, 1, 1, 1] = .ok [1, 1] ∧
      (Evaluate simple bufferAfterEvaluateExample).2.fPdfManager
        = ⟨[[1, 2, 4, 8]], [[2, 4]], [2]⟩ ∧
      (Evaluate simple bufferAfterEvaluateExample).2.fDataPdf = [2, 1, 1, 1] ∧
      simple.GetNBins (Evaluate simple bufferAfterEvaluateExample).2.fDataPdf = 4 ∧
      (Evaluate simple bufferAfterEvaluateExample).2.fPdfManager.fWorkingPdfs.map
        simple.GetNBins = [2] ∧
      (Evaluate simple bufferAfterEvaluateExample).1 = .error (.Collaborator ())) := by
  decide

end Oxsx
